import Mathlib

/-
  Verification development for the NCM-WEBDAV bridge (src/webdav.js).

  The JavaScript source is shallowly embedded as pure Lean functions with
  explicit state passing.  Upstream network calls (the NetEase API module)
  are modelled by an oracle structure `Upstream` whose fields return
  `Option` values: `none` models a thrown/rejected call, `some` a resolved
  response envelope.  Request paths are represented by their percent-decoded
  form (`decodeURIComponent` is applied by the server before any handler
  runs, and `decodeURIComponent (encodeURI s) = s`, so `encodeURI` at the
  serialization boundary is modelled as the identity).  JavaScript numbers
  used as millisecond timestamps are modelled as `Int`; a `0` timestamp
  encodes an absent/falsy field, matching the `x || fallback` idiom of the
  source.  `Date` objects only flow into the serialized listing, where the
  exact date-format string is irrelevant to all properties below, so date
  rendering is a plain numeral print.
-/

set_option linter.unusedVariables false

namespace NCM

/-! ## String primitives (JS `startsWith`, `endsWith`, `substring`, `trim`) -/

/-- Boolean list-prefix test, used to embed `String.prototype.startsWith`. -/
def prefixB : List Char → List Char → Bool
  | [], _ => true
  | _ :: _, [] => false
  | a :: as, b :: bs => a = b && prefixB as bs

/-- JS `s.startsWith(pre)`. -/
def strStarts (s pre : String) : Bool := prefixB pre.data s.data

/-- JS `s.endsWith(post)`. -/
def strEnds (s post : String) : Bool := prefixB post.data.reverse s.data.reverse

/-- JS `s.substring(n)` (drop the first `n` UTF-16 units; all characters in
play are in the BMP, one unit each). -/
def strDropN (s : String) (n : Nat) : String := String.mk (s.data.drop n)

/-- Drop the final character, embedding `replace(/\/$/, '')` after the
trailing-slash test has succeeded. -/
def strDropLast (s : String) : String := String.mk s.data.dropLast

/-- The character set of the JS whitespace class (`\s`, and the set removed
by `String.prototype.trim`). -/
def jsWhitespace : List Char :=
  ['\t', '\n', '\x0b', '\x0c', '\r', ' ', '\u00a0', '\u1680',
   '\u2000', '\u2001', '\u2002', '\u2003', '\u2004', '\u2005', '\u2006',
   '\u2007', '\u2008', '\u2009', '\u200a', '\u2028', '\u2029', '\u202f',
   '\u205f', '\u3000', '\ufeff']

def isJsWs (c : Char) : Bool := jsWhitespace.contains c

/-- JS `String.prototype.trim` on the character list. -/
def jsTrim (l : List Char) : List Char :=
  ((l.dropWhile isJsWs).reverse.dropWhile isJsWs).reverse

/-! ## Name sanitization (src/webdav.js `cleanName`, lines 136-139) -/

/-- The nine characters of the regex `/[\\/:*?"<>|]/g`. -/
def badChars : List Char := ['\\', '/', ':', '*', '?', '"', '<', '>', '|']

def isBad (c : Char) : Bool := badChars.contains c

def replaceBad (c : Char) : Char := if isBad c then '_' else c

/-- `cleanName(name)`: falsy input (empty string) yields "Unknown";
otherwise every character of the illegal set is replaced by an underscore
and surrounding whitespace is trimmed. -/
def cleanName (s : String) : String :=
  if s = "" then "Unknown" else String.mk (jsTrim (s.data.map replaceBad))

/-! ## Configuration and extension hint (`getExtension`, lines 141-148) -/

structure Config where
  quality : String
  mode : String
  refreshInterval : Int
  metadataTTL : Int
deriving DecidableEq

/-- `getExtension`: lossless-tier qualities map to `.flac`, all others to
`.mp3`. -/
def getExtension (cfg : Config) : String :=
  if cfg.quality = "lossless" || cfg.quality = "hires" || cfg.quality = "jymaster" then
    ".flac"
  else
    ".mp3"

/-- The synthesized leaf file name
`cleanName(s.name) + " - " + cleanName(s.ar) + ext`
(lines 332, 391, 455). -/
def songFilename (cfg : Config) (title artists : String) : String :=
  cleanName title ++ " - " ++ cleanName artists ++ getExtension cfg

/-! ## Data model (the `webdavCache` object, lines 52-60) -/

/-- Cached song metadata (`webdavCache.songs[id]`, lines 164-172). -/
structure Song where
  id : Nat
  name : String
  ar : String
  al : String
  picUrl : String
  publishTime : Int
  timestamp : Int
deriving DecidableEq

/-- A raw upstream song envelope as consumed by `getSongsDetails`
(`res.body.songs` elements). -/
structure RawSong where
  id : Nat
  name : String
  arNames : List String
  alName : String
  picUrl : String
  publishTime : Int
deriving DecidableEq

/-- The cache-entry transformation of lines 164-172 (artist names joined
with a comma, fetch timestamp attached). -/
def toSong (now : Int) (r : RawSong) : Song :=
  { id := r.id, name := r.name, ar := String.intercalate "," r.arNames,
    al := r.alName, picUrl := r.picUrl, publishTime := r.publishTime,
    timestamp := now }

/-- An upstream playlist descriptor (`user_playlist` / `recommend_resource`
items); `0` encodes an absent timestamp. -/
structure PlaylistInfo where
  id : Nat
  name : String
  updateTime : Int
  createTime : Int
deriving DecidableEq

/-- A `trackIds` element of `playlist_detail` (fields `id` and `at`). -/
structure TrackRef where
  id : Nat
  addedAt : Int
deriving DecidableEq

/-- `webdavCache.playlists[id]` (lines 374-380 / 438-444). -/
structure CachedPlaylist where
  name : String
  trackIds : List Nat
  trackAtMap : List (Nat × Int)
  updateTime : Int
  timestamp : Int
deriving DecidableEq

/-- A `webdavCache.propfind` entry (line 512). -/
structure PfEntry where
  xml : String
  timestamp : Int
deriving DecidableEq

/-- The mutable server cache: `webdavCache` plus the `songPathMap` Map.
Keyed stores are association lists (first binding wins on lookup, matching
JS object/Map semantics under the update functions below). -/
structure St where
  songs : List (Nat × Song)
  playlists : List (Nat × CachedPlaylist)
  userPlaylists : List PlaylistInfo × Int
  recommendPlaylists : List PlaylistInfo × Int
  dailySongs : List Nat × Int
  propfind : List (String × PfEntry)
  songPathMap : List (String × Nat)
deriving DecidableEq

/-- The upstream API oracle.  `none` = the call threw / rejected. -/
structure Upstream where
  loginProfile : Option (Option Nat)
  recommendSongs : Option (List Nat)
  recommendResource : Option (List PlaylistInfo)
  userPlaylist : Nat → Option (List PlaylistInfo)
  playlistDetail : Nat → Option (List TrackRef)
  songDetail : List Nat → Option (List RawSong)
  searchSongs : String → Option (List Nat)
  songUrl : Nat → Option (Option String)
  addTracks : Nat → Nat → Option Nat
  fetchAudio : String → Option String

/-- The request-independent server context. -/
structure Env where
  cfg : Config
  up : Upstream
  userCookie : String
  todayDate : Int

/-- `checkLogin` (lines 87-95): false without a cookie, false when the
status call throws or the profile is null. -/
def checkLogin (env : Env) : Bool :=
  if env.userCookie = "" then false
  else
    match env.up.loginProfile with
    | some (some _) => true
    | _ => false

/-! ## Association-list operations (JS object key access / `Map`) -/

def alookup {κ ν : Type} [DecidableEq κ] (k : κ) : List (κ × ν) → Option ν
  | [] => none
  | (a, b) :: t => if k = a then some b else alookup k t

def aset {κ ν : Type} [DecidableEq κ] (k : κ) (v : ν) : List (κ × ν) → List (κ × ν)
  | [] => [(k, v)]
  | (a, b) :: t => if k = a then (k, v) :: t else (a, b) :: aset k v t

def adel {κ ν : Type} [DecidableEq κ] (k : κ) : List (κ × ν) → List (κ × ν)
  | [] => []
  | (a, b) :: t => if k = a then adel k t else (a, b) :: adel k t

/-- JS `x || fallback` on numeric timestamps (`0` is falsy). -/
def jsOr (x d : Int) : Int := if x = 0 then d else x

/-! ## Batched song-detail fetch (`getSongsDetails`, lines 154-181) -/

/-- Observable side effects of `getSongsDetails`: one `fetch` event per
upstream batch call (with its outcome) and one `save` event per
`saveCache()` call, in program order. -/
inductive Ev where
  | fetch (batch : List Nat) (ok : Bool)
  | save
deriving DecidableEq

/-- Fuel-driven slicing loop; the fuel (initially the list length) only
forces structural termination and never runs out, see `chunks50_eq`. -/
def chunksGo : Nat → List Nat → List (List Nat)
  | _, [] => []
  | 0, _ :: _ => []
  | fuel + 1, x :: t => (x :: t).take 50 :: chunksGo fuel ((x :: t).drop 50)

/-- The id partition of the `for (let i = 0; i < missingIds.length; i += 50)`
loop: slices of at most 50. -/
def chunks50 (l : List Nat) : List (List Nat) := chunksGo l.length l

/-- Line 155: an id is re-fetched when absent from the cache or older than
`metadataTTL`. -/
def missingIds (cfg : Config) (now : Int) (songs : List (Nat × Song)) (ids : List Nat) :
    List Nat :=
  ids.filter (fun id =>
    match alookup id songs with
    | none => true
    | some s => decide (now - s.timestamp > cfg.metadataTTL))

/-- The `res.body.songs.forEach` cache write of one successful batch
(lines 163-173). -/
def writeBatch (now : Int) (raws : List RawSong) (m : List (Nat × Song)) :
    List (Nat × Song) :=
  raws.foldl (fun mm r => aset r.id (toSong now r) mm) m

/-- The batch loop of lines 159-177: a failed batch is logged and skipped,
its cache entries left untouched. -/
def procBatches (up : Upstream) (now : Int) :
    List (List Nat) → List (Nat × Song) → List (Nat × Song) × List Ev
  | [], m => (m, [])
  | b :: bs, m =>
    match up.songDetail b with
    | some raws =>
      let out := procBatches up now bs (writeBatch now raws m)
      (out.1, Ev.fetch b true :: out.2)
    | none =>
      let out := procBatches up now bs m
      (out.1, Ev.fetch b false :: out.2)

structure SongsOut where
  songs : List (Nat × Song)
  details : List Song
  trace : List Ev
deriving DecidableEq

/-- Upstream well-behavedness on a batch list: every successful
`song_detail` answer returns exactly the requested ids, in order. -/
def wellBehavedB (up : Upstream) (bs : List (List Nat)) : Bool :=
  bs.all (fun b =>
    match up.songDetail b with
    | none => true
    | some raws => raws.map (fun r => r.id) = b)

/-- `getSongsDetails(ids)`: fetch missing/stale ids in batches of 50, call
`saveCache()` once after the loop when anything was missing, and return
`ids.map(id => cache[id]).filter(Boolean)` over the updated cache. -/
def getSongsDetails (env : Env) (now : Int) (songs : List (Nat × Song)) (ids : List Nat) :
    SongsOut :=
  let missing := missingIds env.cfg now songs ids
  if missing = [] then
    { songs := songs, details := ids.filterMap (fun id => alookup id songs), trace := [] }
  else
    let out := procBatches env.up now (chunks50 missing) songs
    { songs := out.1, details := ids.filterMap (fun id => alookup id out.1),
      trace := out.2 ++ [Ev.save] }

/-! ## Virtual namespace constants -/

def dailySongsRoot : String := "/每日推荐歌曲"

def dailyPlaylistsRoot : String := "/每日推荐歌单"

def userPlaylistsRoot : String := "/我的歌单"

/-! ## Resources and the PROPFIND renderer (`handlePropfind`, lines 304-515) -/

inductive RKind where
  | file
  | collection
deriving DecidableEq

/-- One entry of the `resources` array built by `handlePropfind`.  The
`size` of a collection is unused by the serializer (JS leaves it
undefined) and is fixed at `0` here. -/
structure Resource where
  name : String
  kind : RKind
  size : Nat
  mtime : Int
deriving DecidableEq

def fileSize : Nat := 10 * 1024 * 1024

def collRes (name : String) (mtime : Int) : Resource :=
  { name := name, kind := RKind.collection, size := 0, mtime := mtime }

/-- A synthesized song-file resource (lines 330-335 and analogues). -/
def songResource (cfg : Config) (mtime : Int) (s : Song) : Resource :=
  { name := songFilename cfg s.name s.ar, kind := RKind.file, size := fileSize,
    mtime := mtime }

/-- The full virtual path registered in `songPathMap` for a listed song. -/
def songFullPath (cfg : Config) (base : String) (s : Song) : String :=
  base ++ "/" ++ songFilename cfg s.name s.ar

/-- The `songPathMap.set(fullPath, s.id)` writes performed while listing
`details` under directory `base` (the same traversal that builds the file
resources). -/
def spmAfter (cfg : Config) (base : String) (details : List Song)
    (spm : List (String × Nat)) : List (String × Nat) :=
  details.foldl (fun m s => aset (songFullPath cfg base s) s.id m) spm

/-- Outcome of the resource-building phase of `handlePropfind`: a resource
list, the explicit 404 of the unknown-path branch, or a thrown upstream
error (caught at line 475 and turned into a 500).  Each carries the cache
state as mutated so far. -/
inductive RenderOut where
  | ok (resources : List Resource) (st : St)
  | notFound (st : St)
  | failed (st : St)

/-- Daily-songs list with its one-hour cache (lines 315-324); returns the
raw song ids. -/
def getDailyIds (env : Env) (st : St) (now : Int) : Except St (List Nat × St) :=
  if now - st.dailySongs.2 < env.cfg.refreshInterval then .ok (st.dailySongs.1, st)
  else
    match env.up.recommendSongs with
    | some ids => .ok (ids, { st with dailySongs := (ids, now) })
    | none => .error st

/-- Recommended-playlists list with its cache (lines 341-348 / 357-364). -/
def getRecommendPlaylists (env : Env) (st : St) (now : Int) :
    Except St (List PlaylistInfo × St) :=
  if now - st.recommendPlaylists.2 < env.cfg.refreshInterval then
    .ok (st.recommendPlaylists.1, st)
  else
    match env.up.recommendResource with
    | some pls => .ok (pls, { st with recommendPlaylists := (pls, now) })
    | none => .error st

/-- User-playlists list with its cache (lines 401-410 / 419-428); the
profile call supplies the uid and throws on a null profile. -/
def getUserPlaylists (env : Env) (st : St) (now : Int) :
    Except St (List PlaylistInfo × St) :=
  if now - st.userPlaylists.2 < env.cfg.refreshInterval then
    .ok (st.userPlaylists.1, st)
  else
    match env.up.loginProfile with
    | some (some uid) =>
      match env.up.userPlaylist uid with
      | some pls => .ok (pls, { st with userPlaylists := (pls, now) })
      | none => .error st
    | _ => .error st

/-- The `playlist_detail` refetch that builds and stores a snapshot
(lines 370-382 / 434-446). -/
def refetchSnapshot (env : Env) (st : St) (now : Int) (plId : Nat) (plName : String)
    (upd : Int) : Except St (CachedPlaylist × St) :=
  match env.up.playlistDetail plId with
  | some tracks =>
    let cp : CachedPlaylist :=
      { name := plName, trackIds := tracks.map (fun t => t.id),
        trackAtMap := tracks.foldl (fun m t => aset t.id t.addedAt m) [],
        updateTime := upd, timestamp := now }
    .ok (cp, { st with playlists := aset plId cp st.playlists })
  | none => .error st

/-- Snapshot lookup: reuse the cached playlist unless absent or strictly
older than `refreshInterval` (lines 368-383 / 432-447). -/
def getSnapshot (env : Env) (st : St) (now : Int) (plId : Nat) (plName : String)
    (upd : Int) : Except St (CachedPlaylist × St) :=
  match alookup plId st.playlists with
  | some cp =>
    if now - cp.timestamp > env.cfg.refreshInterval then
      refetchSnapshot env st now plId plName upd
    else
      .ok (cp, st)
  | none => refetchSnapshot env st now plId plName upd

/-- File mtime inside a playlist directory (lines 393 / 457): track
added-at when truthy, else song publish time when truthy, else the
playlist mtime. -/
def trackMtime (cp : CachedPlaylist) (plMt : Int) (s : Song) : Int :=
  match alookup s.id cp.trackAtMap with
  | some v => if v = 0 then jsOr s.publishTime plMt else v
  | none => jsOr s.publishTime plMt

/-- The fixed root listing (lines 307-313). -/
def rootResources (env : Env) : List Resource :=
  [collRes "" env.todayDate,
   collRes "每日推荐歌曲" env.todayDate,
   collRes "每日推荐歌单" env.todayDate,
   collRes "我的歌单" env.todayDate]

/-- The `/每日推荐歌曲` branch (lines 314-337). -/
def renderDailySongs (env : Env) (st : St) (now : Int) : RenderOut :=
  match getDailyIds env st now with
  | .error st₁ => .failed st₁
  | .ok (songIds, st₁) =>
    let out := getSongsDetails env now st₁.songs songIds
    let st₂ := { st₁ with songs := out.songs }
    let ds := out.details
    let rs := collRes "每日推荐歌曲" env.todayDate
              :: ds.map (fun s => songResource env.cfg (jsOr s.publishTime env.todayDate) s)
    .ok rs { st₂ with songPathMap := spmAfter env.cfg dailySongsRoot ds st₂.songPathMap }

/-- The `/每日推荐歌单` branch (lines 338-352). -/
def renderDailyPlaylists (env : Env) (st : St) (now : Int) : RenderOut :=
  match getRecommendPlaylists env st now with
  | .error st₁ => .failed st₁
  | .ok (pls, st₁) =>
    .ok (collRes "每日推荐歌单" env.todayDate
         :: pls.map (fun p => collRes (cleanName p.name) (jsOr p.createTime env.todayDate)))
        st₁

/-- The shared tail of the two playlist-directory branches: resolve track
details and list the playlist's songs (lines 385-396 / 449-460). -/
def listPlaylistSongs (env : Env) (st : St) (now : Int) (urlPath plName : String)
    (cp : CachedPlaylist) : RenderOut :=
  let out := getSongsDetails env now st.songs cp.trackIds
  let st₁ := { st with songs := out.songs }
  let ds := out.details
  let plMt := jsOr cp.updateTime env.todayDate
  let rs := collRes plName plMt
            :: ds.map (fun s => songResource env.cfg (trackMtime cp plMt s) s)
  .ok rs { st₁ with songPathMap := spmAfter env.cfg urlPath ds st₁.songPathMap }

/-- The `/每日推荐歌单/<name>` branch (lines 353-397).  When no playlist of
that cleaned name exists the `resources` array keeps its initial empty
value and the response is an empty 207 listing. -/
def renderDailyPlaylistDir (env : Env) (st : St) (now : Int) (urlPath : String) :
    RenderOut :=
  let plName := strDropN urlPath 8
  match getRecommendPlaylists env st now with
  | .error st₁ => .failed st₁
  | .ok (pls, st₁) =>
    match pls.find? (fun p => cleanName p.name = plName) with
    | some p =>
      match getSnapshot env st₁ now p.id p.name (jsOr p.updateTime p.createTime) with
      | .error st₂ => .failed st₂
      | .ok (cp, st₂) => listPlaylistSongs env st₂ now urlPath plName cp
    | none => .ok [] st₁

/-- The `/我的歌单` branch (lines 398-414). -/
def renderUserPlaylists (env : Env) (st : St) (now : Int) : RenderOut :=
  match getUserPlaylists env st now with
  | .error st₁ => .failed st₁
  | .ok (pls, st₁) =>
    .ok (collRes "我的歌单" env.todayDate
         :: pls.map (fun p => collRes (cleanName p.name) (jsOr p.updateTime env.todayDate)))
        st₁

/-- The `/我的歌单/<name>` branch (lines 415-461). -/
def renderUserPlaylistDir (env : Env) (st : St) (now : Int) (urlPath : String) :
    RenderOut :=
  let plName := strDropN urlPath 6
  match getUserPlaylists env st now with
  | .error st₁ => .failed st₁
  | .ok (pls, st₁) =>
    match pls.find? (fun p => cleanName p.name = plName) with
    | some p =>
      match getSnapshot env st₁ now p.id p.name p.updateTime with
      | .error st₂ => .failed st₂
      | .ok (cp, st₂) => listPlaylistSongs env st₂ now urlPath plName cp
    | none => .ok [] st₁

/-- `path.basename`. -/
def basename (p : String) : String :=
  String.mk (p.data.reverse.takeWhile (fun c => c ≠ '/')).reverse

/-- The cover-image branch of `handlePropfind` (lines 462-463). -/
def renderCover (env : Env) (st : St) (urlPath : String) : RenderOut :=
  .ok [{ name := basename urlPath, kind := RKind.file, size := 1024 * 1024,
          mtime := env.todayDate }] st

/-- The final branch (lines 464-473): a known leaf lists itself, anything
else is 404. -/
def renderLeaf (env : Env) (st : St) (urlPath : String) : RenderOut :=
  match alookup urlPath st.songPathMap with
  | some songId =>
    let mt := match alookup songId st.songs with
      | some s => jsOr s.publishTime env.todayDate
      | none => env.todayDate
    .ok [{ name := basename urlPath, kind := RKind.file, size := fileSize,
            mtime := mt }] st
  | none => .notFound st

/-- The branch chain of `handlePropfind` in source order (lines 307-474). -/
def renderResources (env : Env) (st : St) (now : Int) (urlPath : String) : RenderOut :=
  if urlPath = "/" then .ok (rootResources env) st
  else if urlPath = dailySongsRoot then renderDailySongs env st now
  else if urlPath = dailyPlaylistsRoot then renderDailyPlaylists env st now
  else if strStarts urlPath (dailyPlaylistsRoot ++ "/") then
    renderDailyPlaylistDir env st now urlPath
  else if urlPath = userPlaylistsRoot then renderUserPlaylists env st now
  else if strStarts urlPath (userPlaylistsRoot ++ "/") then
    renderUserPlaylistDir env st now urlPath
  else if strEnds urlPath "/cover.jpg" || strEnds urlPath "/folder.jpg" then
    renderCover env st urlPath
  else renderLeaf env st urlPath

/-! ## Serialization (the xml2js builder call, lines 481-511) -/

/-- `resPath.replace(/\\/g, '/')` (line 491). -/
def bsToSlash (s : String) : String :=
  String.mk (s.data.map (fun c => if c = '\\' then '/' else c))

/-- The `D:href` of one response entry (lines 490-494); `encodeURI` is the
identity under the decoded-path representation. -/
def childHref (urlPath : String) (r : Resource) : String :=
  let resPath := bsToSlash (if r.name = "" then urlPath
                            else (if urlPath = "/" then "" else urlPath) ++ "/" ++ r.name)
  resPath ++ (if r.kind = RKind.collection && r.name ≠ "" then "/" else "")

/-- The path a client reaches after following a listed child's href and the
server re-normalizes it (one trailing slash stripped). -/
def childPath (urlPath : String) (r : Resource) : String :=
  bsToSlash ((if urlPath = "/" then "" else urlPath) ++ "/" ++ r.name)

/-- One `D:response` element (lines 489-508).  Tag layout mirrors the
props emitted by the source; numeric date rendering stands in for
`toUTCString`, which affects no verified property. -/
def resourceXml (env : Env) (urlPath : String) (r : Resource) : String :=
  let isCol := r.kind = RKind.collection
  "<D:response><D:href>" ++ childHref urlPath r
  ++ "</D:href><D:propstat><D:prop><D:displayname>"
  ++ (if r.name = "" then "/" else r.name)
  ++ "</D:displayname><D:resourcetype>"
  ++ (if isCol then "<D:collection/>" else "")
  ++ "</D:resourcetype>"
  ++ (if isCol then "" else
      "<D:getcontentlength>" ++ toString r.size
      ++ "</D:getcontentlength><D:getcontenttype>"
      ++ (if strEnds r.name ".flac" then "audio/flac" else "audio/mpeg")
      ++ "</D:getcontenttype>")
  ++ "<D:getlastmodified>" ++ toString (jsOr r.mtime env.todayDate)
  ++ "</D:getlastmodified><D:status>HTTP/1.1 200 OK</D:status></D:propstat></D:response>"

/-- The multistatus document (lines 481-511). -/
def buildXml (env : Env) (urlPath : String) (rs : List Resource) : String :=
  "<?xml version=\"1.0\" encoding=\"UTF-8\"?><D:multistatus xmlns:D=\"DAV:\">"
  ++ String.join (rs.map (resourceXml env urlPath)) ++ "</D:multistatus>"

/-! ## HTTP responses -/

structure Resp where
  status : Nat
  body : String
  ctype : Option String
  headers : List (String × String)
  location : Option String
deriving DecidableEq

def respOf (status : Nat) (body : String) : Resp :=
  { status := status, body := body, ctype := none, headers := [], location := none }

structure PfOut where
  resp : Resp
  st : St
  listed : List Resource
deriving DecidableEq

/-- `handlePropfind` (lines 304-515): build resources, serialize, store in
the listing cache with a fresh timestamp, respond 207. -/
def handlePropfind (env : Env) (st : St) (now : Int) (urlPath : String) : PfOut :=
  match renderResources env st now urlPath with
  | .notFound st₁ => { resp := respOf 404 "Not Found", st := st₁, listed := [] }
  | .failed st₁ => { resp := respOf 500 "Internal Server Error", st := st₁, listed := [] }
  | .ok rs st₁ =>
    let xml := buildXml env urlPath rs
    { resp := { status := 207, body := xml,
                ctype := some "application/xml; charset=utf-8", headers := [],
                location := none },
      st := { st₁ with
              propfind := aset urlPath { xml := xml, timestamp := now } st₁.propfind },
      listed := rs }

/-! ## GET / HEAD (`handleGet`, lines 517-568; covers, lines 570-599;
experience mode, lines 601-661) -/

def coverBranch (p : String) : Bool :=
  strEnds p "/cover.jpg" || strEnds p "/folder.jpg"

def audioCtype (p : String) : String :=
  if strEnds p ".flac" then "audio/flac" else "audio/mpeg"

/-- `path.dirname`. -/
def dirnameJs (p : String) : String :=
  match p.data.reverse.dropWhile (fun c => c ≠ '/') with
  | [] => "."
  | [_] => "/"
  | _ :: t => String.mk t.reverse

/-- The `songPathMap` scan of `handleCoverGet` (lines 573-582): the first
entry under the directory whose song has a truthy cover URL. -/
def findCover (songs : List (Nat × Song)) (dirPath : String) :
    List (String × Nat) → Option String
  | [] => none
  | (p, id) :: t =>
    if strStarts p (dirPath ++ "/") then
      match alookup id songs with
      | some s =>
        if s.picUrl ≠ "" then some s.picUrl else findCover songs dirPath t
      | none => findCover songs dirPath t
    else findCover songs dirPath t

/-- `handleCoverGet` (lines 570-599). -/
def handleCoverGet (env : Env) (st : St) (urlPath : String) (isHead : Bool) :
    Resp × St :=
  match findCover st.songs (dirnameJs urlPath) st.songPathMap with
  | none => (respOf 404 "Cover not found", st)
  | some picUrl =>
    if isHead then
      ({ status := 200, body := "", ctype := some "image/jpeg", headers := [],
         location := none }, st)
    else
      ({ status := 302, body := "", ctype := none, headers := [],
         location := some picUrl }, st)

/-- All split points of a character list (prefix/suffix pairs in order). -/
def splits : List Char → List (List Char × List Char)
  | [] => [([], [])]
  | c :: t => ([], c :: t) :: (splits t).map (fun ab => (c :: ab.1, ab.2))

/-- Greedy separator search inside the final path segment for the regex
`([^/]+)\s-\s([^/]+)`: the rightmost whitespace-dash-whitespace separator
with nonempty groups on both sides. -/
def matchCore (tail : List Char) : Option (String × String) :=
  let cands := (splits tail).filterMap (fun ab =>
    match ab.2 with
    | w1 :: '-' :: w2 :: rest =>
      if ab.1 ≠ [] && isJsWs w1 && isJsWs w2 && rest ≠ [] then some (ab.1, rest)
      else none
    | _ => none)
  match cands.getLast? with
  | some (m1, m2) => some (String.mk m1, String.mk m2)
  | none => none

/-- The filename fallback pattern `/\/([^/]+)\s-\s([^/]+)\.(mp3|flac)$/`
(lines 534 and 253): anchored at the end, the groups cannot cross a slash,
so the leading `\/` is the last slash of the path and greedy backtracking
selects the rightmost separator. -/
def matchSongFile (p : String) : Option (String × String) :=
  let core :=
    if strEnds p ".mp3" then some (p.data.take (p.data.length - 4))
    else if strEnds p ".flac" then some (p.data.take (p.data.length - 5))
    else none
  match core with
  | none => none
  | some c =>
    if c.contains '/' then
      matchCore (c.reverse.takeWhile (fun x => x ≠ '/')).reverse
    else none

/-- The experience-mode proxy (`handleGetExperience`, lines 601-661):
statuses and state only; the proxied bytes and the ID3 rewrite are the
response body.  An empty details list makes the tag construction of
line 624 throw (mp3 case), caught as a 500. -/
def handleGetExperience (env : Env) (st : St) (now : Int) (songId : Nat)
    (urlPath : String) : Resp × St :=
  match env.up.songUrl songId with
  | none => (respOf 500 "Internal Server Error", st)
  | some none => (respOf 404 "Song URL not found", st)
  | some (some url) =>
    let out := getSongsDetails env now st.songs [songId]
    let st₁ := { st with songs := out.songs }
    match env.up.fetchAudio url with
    | none => (respOf 500 "Internal Server Error", st₁)
    | some buf =>
      if strEnds urlPath ".mp3" then
        match out.details with
        | [] => (respOf 500 "Internal Server Error", st₁)
        | _ :: _ =>
          ({ status := 200, body := buf, ctype := some (audioCtype urlPath),
             headers := [], location := none }, st₁)
      else
        ({ status := 200, body := buf, ctype := some (audioCtype urlPath),
           headers := [], location := none }, st₁)

/-- `handleGet` (lines 517-568).  HEAD on a non-cover path answers 200
immediately; GET resolves the path through `songPathMap`, then the search
fallback, then fetches a stream URL (failures fall through to 404). -/
def handleGet (env : Env) (st : St) (now : Int) (urlPath : String) (isHead : Bool) :
    Resp × St :=
  if coverBranch urlPath then handleCoverGet env st urlPath isHead
  else
    let songId₀ := alookup urlPath st.songPathMap
    if isHead then
      ({ status := 200, body := "", ctype := some (audioCtype urlPath),
         headers := [("Accept-Ranges", "none")], location := none }, st)
    else
      let songId :=
        match songId₀ with
        | some id => some id
        | none =>
          match matchSongFile urlPath with
          | some (t, a) =>
            match env.up.searchSongs (t ++ " " ++ a) with
            | some (id :: _) => some id
            | _ => none
          | none => none
      match songId with
      | none => (respOf 404 "Song not found", st)
      | some id =>
        if env.cfg.mode = "experience" then handleGetExperience env st now id urlPath
        else
          match env.up.songUrl id with
          | some (some url) =>
            ({ status := 302, body := "", ctype := none, headers := [],
               location := some url }, st)
          | _ => (respOf 404 "Song not found", st)

/-! ## COPY / MOVE (`handleCopyMove`, lines 231-302) -/

/-- One trailing slash stripped from the Destination pathname (line 239). -/
def stripTrail (p : String) : String := if strEnds p "/" then strDropLast p else p

/-- The destination pattern `/^\/我的歌单\/([^/]+)/` (line 242): the first
nonempty segment after the user-playlists root. -/
def destMatch (destPath : String) : Option String :=
  if strStarts destPath (userPlaylistsRoot ++ "/") then
    let seg := (destPath.data.drop 6).takeWhile (fun c => c ≠ '/')
    if seg = [] then none else some (String.mk seg)
  else none

/-- Source-path resolution of `handleCopyMove` (lines 249-260): map first,
then the filename-search fallback.  Unlike `handleGet`, a throwing search
is caught only by the outer handler (500). -/
def resolveCopySource (env : Env) (st : St) (urlPath : String) :
    Except Unit (Option Nat) :=
  match alookup urlPath st.songPathMap with
  | some id => .ok (some id)
  | none =>
    match matchSongFile urlPath with
    | some (t, a) =>
      match env.up.searchSongs (t ++ " " ++ a) with
      | none => .error ()
      | some (id :: _) => .ok (some id)
      | some [] => .ok none
    | none => .ok none

structure CmOut where
  resp : Resp
  st : St
  mutated : Bool
deriving DecidableEq

/-- `handleCopyMove` (lines 231-302).  On a 200 or 502 upstream code the
response is 201 and the destination's listing cache entries, the playlist
snapshot and the user-playlists timestamp are invalidated (lines 286-293);
`songPathMap` is not touched.  `mutated` records whether the upstream
add-track mutation was issued. -/
def handleCopyMove (env : Env) (st : St) (now : Int) (urlPath : String)
    (dest : Option String) : CmOut :=
  match dest with
  | none => { resp := respOf 400 "Destination header missing", st := st, mutated := false }
  | some destRaw =>
    let destPath := stripTrail destRaw
    match destMatch destPath with
    | none =>
      { resp := respOf 403 "Only copying/moving to designated playlists is supported",
        st := st, mutated := false }
    | some playlistName =>
      match resolveCopySource env st urlPath with
      | .error _ =>
        { resp := respOf 500 "Internal Server Error", st := st, mutated := false }
      | .ok none =>
        { resp := respOf 404 "Source song not found", st := st, mutated := false }
      | .ok (some songId) =>
        match env.up.loginProfile with
        | some (some uid) =>
          match env.up.userPlaylist uid with
          | some pls =>
            match pls.find? (fun p => cleanName p.name = playlistName) with
            | none =>
              { resp := respOf 404 "Target playlist not found", st := st, mutated := false }
            | some pl =>
              match env.up.addTracks pl.id songId with
              | none =>
                { resp := respOf 500 "Internal Server Error", st := st, mutated := true }
              | some code =>
                if code = 200 || code = 502 then
                  { resp := respOf 201 "Created",
                    st := { st with
                            propfind := adel (userPlaylistsRoot ++ "/" ++ playlistName)
                                          (adel destPath st.propfind),
                            playlists := adel pl.id st.playlists,
                            userPlaylists := (st.userPlaylists.1, 0) },
                    mutated := true }
                else
                  { resp := respOf (if code = 0 then 500 else code) "upstream error",
                    st := st, mutated := true }
          | none =>
            { resp := respOf 500 "Internal Server Error", st := st, mutated := false }
        | _ => { resp := respOf 500 "Internal Server Error", st := st, mutated := false }

/-! ## The per-request dispatcher (the `app.use` middleware, lines 183-229) -/

/-- Path normalization of line 185:
`decodeURIComponent(req.path).replace(/\/$/, '') || '/'`. -/
def normPath (p : String) : String :=
  let q := if strEnds p "/" then strDropLast p else p
  if q = "" then "/" else q

structure Req where
  method : String
  path : String
  dest : Option String

def optionsHeaders : List (String × String) :=
  [("Allow", "OPTIONS, PROPFIND, GET, HEAD, COPY, MOVE"), ("DAV", "1")]

structure DOut where
  resp : Resp
  st : St
  rendered : Bool
  listed : List Resource

/-- The middleware (lines 183-229): authentication gate, OPTIONS, the
PROPFIND cache check of lines 207-216, GET/HEAD, COPY/MOVE, 405.
`rendered` records whether `handlePropfind` ran (as opposed to a listing
served from the cache). -/
def dispatch (env : Env) (st : St) (now : Int) (req : Req) : DOut :=
  let urlPath := normPath req.path
  if checkLogin env = false then
    if req.method = "OPTIONS" then
      { resp := { status := 200, body := "", ctype := none,
                  headers := optionsHeaders, location := none },
        st := st, rendered := false, listed := [] }
    else
      { resp := respOf 401 "Unauthorized. Please check server console for QR code.",
        st := st, rendered := false, listed := [] }
  else if req.method = "OPTIONS" then
    { resp := { status := 200, body := "", ctype := none,
                headers := optionsHeaders, location := none },
      st := st, rendered := false, listed := [] }
  else if req.method = "PROPFIND" then
    let hit := match alookup urlPath st.propfind with
      | some e =>
        if now - e.timestamp < env.cfg.refreshInterval then some e.xml else none
      | none => none
    match hit with
    | some xml =>
      { resp := { status := 207, body := xml,
                  ctype := some "application/xml; charset=utf-8", headers := [],
                  location := none },
        st := st, rendered := false, listed := [] }
    | none =>
      let out := handlePropfind env st now urlPath
      { resp := out.resp, st := out.st, rendered := true, listed := out.listed }
  else if req.method = "GET" || req.method = "HEAD" then
    let out := handleGet env st now urlPath (req.method = "HEAD")
    { resp := out.1, st := out.2, rendered := false, listed := [] }
  else if req.method = "COPY" || req.method = "MOVE" then
    let out := handleCopyMove env st now urlPath req.dest
    { resp := out.resp, st := out.st, rendered := false, listed := [] }
  else
    { resp := respOf 405 "Method Not Allowed", st := st, rendered := false, listed := [] }

/-- The syntactic directory classes of the virtual namespace: exactly the
path shapes handled by the first six branches of `handlePropfind`. -/
def isDirPath (p : String) : Bool :=
  p = "/" || p = dailySongsRoot || p = dailyPlaylistsRoot ||
  strStarts p (dailyPlaylistsRoot ++ "/") || p = userPlaylistsRoot ||
  strStarts p (userPlaylistsRoot ++ "/")

/-- A healthy upstream: every catalog call used by the PROPFIND renderer
resolves. -/
structure Healthy (up : Upstream) : Prop where
  profile : ∃ uid, up.loginProfile = some (some uid)
  daily : ∃ ids, up.recommendSongs = some ids
  recres : ∃ pls, up.recommendResource = some pls
  upl : ∀ uid, ∃ pls, up.userPlaylist uid = some pls
  pdetail : ∀ pid, ∃ ts, up.playlistDetail pid = some ts

/-- The facts about one listed child entry `r` of a rendered directory
listing on `uD` that drive the path-round-trip property: its name is free
of path separators, its re-normalized path is either the daily-songs
directory's self-named entry, a branch-recognized directory path, or a
registered `songPathMap` key, and a file child is always registered and
carries an audio extension. -/
def ChildFacts (spm : List (String × Nat)) (uD : String) (r : Resource) : Prop :=
  '/' ∉ r.name.data ∧ '\\' ∉ r.name.data ∧
  (childPath uD r = "/每日推荐歌曲/每日推荐歌曲" ∨
    isDirPath (childPath uD r) = true ∨
    (alookup (childPath uD r) spm).isSome = true) ∧
  (r.kind = RKind.file →
    (alookup (childPath uD r) spm).isSome = true ∧
    (strEnds r.name ".mp3" || strEnds r.name ".flac") = true)

/-! ## Concrete fixtures (used by witnesses and counterexamples) -/

/-- The default configuration of lines 11-17 (speed mode, `exhigh`). -/
def defaultConfig : Config :=
  { quality := "exhigh", mode := "speed", refreshInterval := 3600000,
    metadataTTL := 86400000 }

/-- An oracle in which every upstream call throws. -/
def upNone : Upstream :=
  { loginProfile := none, recommendSongs := none, recommendResource := none,
    userPlaylist := fun _ => none, playlistDetail := fun _ => none,
    songDetail := fun _ => none, searchSongs := fun _ => none,
    songUrl := fun _ => none, addTracks := fun _ _ => none,
    fetchAudio := fun _ => none }

/-- The cache state at first start (lines 52-60 and 71). -/
def stEmpty : St :=
  { songs := [], playlists := [], userPlaylists := ([], 0),
    recommendPlaylists := ([], 0), dailySongs := ([], 0), propfind := [],
    songPathMap := [] }

/-- A server context with no stored credential. -/
def envAnon : Env :=
  { cfg := defaultConfig, up := upNone, userCookie := "", todayDate := 0 }

def rawOf (i : Nat) : RawSong :=
  { id := i, name := "Song", arNames := ["Artist"], alName := "Album",
    picUrl := "http://pic", publishTime := 0 }

/-- An oracle in which every upstream call succeeds. -/
def upHealthy : Upstream :=
  { loginProfile := some (some 1), recommendSongs := some [],
    recommendResource := some [], userPlaylist := fun _ => some [],
    playlistDetail := fun _ => some [],
    songDetail := fun b => some (b.map rawOf), searchSongs := fun _ => some [],
    songUrl := fun _ => some (some "http://stream"),
    addTracks := fun _ _ => some 200, fetchAudio := fun _ => some "bytes" }

/-- A logged-in server context over the healthy oracle. -/
def envH : Env :=
  { cfg := defaultConfig, up := upHealthy, userCookie := "cookie", todayDate := 0 }

/-- 51 requested ids: enough for two batches of the 50-sized batch loop. -/
def ids51 : List Nat := List.range 51

/-- An oracle whose `song_detail` succeeds on every batch. -/
def upBatchesOk : Upstream := { upNone with songDetail := fun b => some (b.map rawOf) }

def envBatchesOk : Env :=
  { cfg := defaultConfig, up := upBatchesOk, userCookie := "c", todayDate := 0 }

/-- An oracle whose `song_detail` fails on batches larger than one id. -/
def upFirstBatchFails : Upstream :=
  { upNone with songDetail := fun b => if b.length ≤ 1 then some (b.map rawOf) else none }

def envFirstBatchFails : Env :=
  { cfg := defaultConfig, up := upFirstBatchFails, userCookie := "c", todayDate := 0 }

/-! ## Helper lemmas: prefix tests -/

theorem prefixB_iff (a : List Char) : ∀ b, prefixB a b = true ↔ a <+: b := by
  induction a with
  | nil => intro b; simp [prefixB]
  | cons x xs ih =>
    intro b
    cases b with
    | nil => simp [prefixB]
    | cons y ys => simp [prefixB, List.cons_prefix_cons, ih]

theorem prefixB_append (a b : List Char) : prefixB a (a ++ b) = true :=
  (prefixB_iff a (a ++ b)).mpr ⟨b, rfl⟩

theorem prefixB_append_right (pre u x : List Char) (h : prefixB pre u = true) :
    prefixB pre (u ++ x) = true :=
  (prefixB_iff pre (u ++ x)).mpr (((prefixB_iff pre u).mp h).trans ⟨x, rfl⟩)

theorem prefixB_head {a b : Char} {as bs l : List Char}
    (ha : prefixB (a :: as) l = true) (hb : prefixB (b :: bs) l = true) : a = b := by
  cases l with
  | nil => simp [prefixB] at ha
  | cons c t =>
    simp [prefixB] at ha hb
    rw [ha.1, hb.1]

theorem strStarts_append (x y : String) : strStarts (x ++ y) x = true := by
  unfold strStarts
  rw [String.data_append]
  exact prefixB_append x.data y.data

theorem strEnds_append (x y : String) : strEnds (x ++ y) y = true := by
  unfold strEnds
  rw [String.data_append, List.reverse_append]
  exact prefixB_append y.data.reverse x.data.reverse

/-! ## Helper lemmas: association lists -/

theorem alookup_aset_self {κ ν : Type} [DecidableEq κ] (k : κ) (v : ν) :
    ∀ m : List (κ × ν), alookup k (aset k v m) = some v := by
  intro m
  induction m with
  | nil => simp [aset, alookup]
  | cons h t ih =>
    obtain ⟨a, b⟩ := h
    by_cases hk : k = a
    · simp [aset, alookup, hk]
    · simp [aset, alookup, hk, ih]

theorem alookup_aset_ne {κ ν : Type} [DecidableEq κ] (k q : κ) (v : ν)
    (hne : q ≠ k) : ∀ m : List (κ × ν), alookup q (aset k v m) = alookup q m := by
  intro m
  induction m with
  | nil => simp [aset, alookup, hne]
  | cons h t ih =>
    obtain ⟨a, b⟩ := h
    by_cases hk : k = a
    · subst hk
      simp [aset, alookup, hne]
    · by_cases hq : q = a
      · simp [aset, alookup, hk, hq]
      · simp [aset, alookup, hk, hq, ih]

theorem alookup_adel_self {κ ν : Type} [DecidableEq κ] (k : κ) :
    ∀ m : List (κ × ν), alookup k (adel k m) = none := by
  intro m
  induction m with
  | nil => simp [adel, alookup]
  | cons h t ih =>
    obtain ⟨a, b⟩ := h
    by_cases hk : k = a
    · subst hk
      simp [adel, ih]
    · simp [adel, alookup, hk, ih]

/-- Looking a key up after a fold of keyed writes returns the value of the
last written element with that key, or falls back to the original map. -/
theorem alookup_foldl_aset {α κ ν : Type} [DecidableEq κ] (key : α → κ) (val : α → ν) :
    ∀ (l : List α) (m : List (κ × ν)) (k : κ),
      alookup k (l.foldl (fun mm x => aset (key x) (val x) mm) m)
        = ((l.filter (fun x => key x = k)).getLast?.elim (alookup k m)
            (fun x => some (val x))) := by
  intro l
  induction l with
  | nil => intro m k; simp
  | cons x t ih =>
    intro m k
    rw [List.foldl_cons, ih]
    by_cases hx : key x = k
    · rw [List.filter_cons_of_pos (by simp [hx])]
      cases hf : t.filter (fun y => key y = k) with
      | nil => simp [List.getLast?, hf, hx, alookup_aset_self]
      | cons z zs =>
        cases hg : (z :: zs).getLast? with
        | none => simp at hg
        | some w => simp [hf, List.getLast?_cons_cons, hg]
    · rw [List.filter_cons_of_neg (by simp [hx])]
      cases hf : t.filter (fun y => key y = k) with
      | nil => simp [hf, alookup_aset_ne (key x) k (val x) (fun hq => hx hq.symm)]
      | cons z zs =>
        cases hg : (z :: zs).getLast? with
        | none => simp at hg
        | some w => simp [hf, hg]

/-! ## Helper lemmas: sanitization -/

theorem mem_of_mem_jsTrim {c : Char} {l : List Char} (h : c ∈ jsTrim l) : c ∈ l := by
  unfold jsTrim at h
  rw [List.mem_reverse] at h
  have h2 : c ∈ (l.dropWhile isJsWs).reverse := (List.dropWhile_suffix isJsWs).subset h
  rw [List.mem_reverse] at h2
  exact (List.dropWhile_suffix isJsWs).subset h2

/-- No character of the illegal set survives `cleanName`. -/
theorem isBad_not_mem_cleanName (s : String) (c : Char) (hc : isBad c = true) :
    c ∉ (cleanName s).data := by
  intro hmem
  unfold cleanName at hmem
  by_cases hs : s = ""
  · rw [if_pos hs] at hmem
    have : ∀ d ∈ "Unknown".data, isBad d = false := by decide
    rw [this c hmem] at hc
    exact Bool.false_ne_true hc
  · rw [if_neg hs] at hmem
    have h1 : c ∈ s.data.map replaceBad := mem_of_mem_jsTrim hmem
    obtain ⟨d, _, hd⟩ := List.mem_map.mp h1
    by_cases hb : isBad d = true
    · rw [show replaceBad d = '_' from by simp [replaceBad, hb]] at hd
      rw [← hd] at hc
      exact absurd hc (by decide)
    · rw [show replaceBad d = d from by simp [replaceBad, Bool.eq_false_iff.mpr hb]] at hd
      rw [← hd] at hc
      exact hb hc

/-- C2-claim: the synthesized filename never contains an illegal character. -/
theorem isBad_not_mem_songFilename (cfg : Config) (title artists : String) (c : Char)
    (hc : isBad c = true) : c ∉ (songFilename cfg title artists).data := by
  intro hmem
  unfold songFilename at hmem
  rw [String.data_append, String.data_append, String.data_append] at hmem
  rcases List.mem_append.mp hmem with h1 | h4
  · rcases List.mem_append.mp h1 with h2 | h3
    · rcases List.mem_append.mp h2 with h5 | h6
      · exact isBad_not_mem_cleanName title c hc h5
      · have : ∀ d ∈ " - ".data, isBad d = false := by decide
        rw [this c h6] at hc
        exact Bool.false_ne_true hc
    · exact isBad_not_mem_cleanName artists c hc h3
  · unfold getExtension at h4
    by_cases hq : (cfg.quality = "lossless" || cfg.quality = "hires"
        || cfg.quality = "jymaster") = true
    · rw [if_pos hq] at h4
      have : ∀ d ∈ ".flac".data, isBad d = false := by decide
      rw [this c h4] at hc
      exact Bool.false_ne_true hc
    · rw [if_neg hq] at h4
      have : ∀ d ∈ ".mp3".data, isBad d = false := by decide
      rw [this c h4] at hc
      exact Bool.false_ne_true hc

/-! ## Claim C2 -/

/-- C2: name sanitization is exhaustive.  For every title and artist
string and every character of the illegal set `\ / : * ? " < > |`, the
synthesized filename `cleanName(title) + " - " + cleanName(artists) + ext`
does not contain that character: `cleanName` replaces each occurrence by
an underscore and trims surrounding whitespace, and the separator and the
extension are free of illegal characters. -/
theorem claim_C2 (cfg : Config) (title artists : String) (c : Char)
    (hc : c ∈ badChars) : c ∉ (songFilename cfg title artists).data :=
  isBad_not_mem_songFilename cfg title artists c (by simpa [isBad] using hc)

theorem claim_C2_witness :
    '?' ∈ badChars ∧ '?' ∉ (songFilename defaultConfig "a?b" "x|y").data :=
  ⟨by decide, claim_C2 defaultConfig "a?b" "x|y" '?' (by decide)⟩

/-! ## Claim C3 -/

/-- C3: unauthenticated boundary.  Without a valid cached credential the
middleware answers OPTIONS with 200 plus the `Allow`/`DAV` headers and an
empty body, and every other verb with 401 and the fixed unauthorized
string; the cache state is untouched, so no catalog data is returned in
either case. -/
theorem claim_C3 (env : Env) (st : St) (now : Int) (req : Req)
    (hauth : checkLogin env = false) :
    (req.method = "OPTIONS" →
      (dispatch env st now req).resp.status = 200 ∧
      (dispatch env st now req).resp.headers = optionsHeaders ∧
      (dispatch env st now req).resp.body = "") ∧
    (req.method ≠ "OPTIONS" →
      (dispatch env st now req).resp.status = 401 ∧
      (dispatch env st now req).resp.body =
        "Unauthorized. Please check server console for QR code.") ∧
    (dispatch env st now req).st = st := by
  by_cases hm : req.method = "OPTIONS" <;> simp [dispatch, hauth, hm, respOf]

theorem claim_C3_witness :
    checkLogin envAnon = false ∧
    (dispatch envAnon stEmpty 0 ⟨"PROPFIND", "/", none⟩).resp.status = 401 :=
  ⟨rfl, ((claim_C3 envAnon stEmpty 0 ⟨"PROPFIND", "/", none⟩ rfl).2.1 (by decide)).1⟩

/-! ## Claim C10 -/

/-- C10: an authenticated HEAD on any non-cover path answers 200 with an
audio content type (`audio/flac` for `.flac` paths, `audio/mpeg`
otherwise), an empty body and an unchanged state, regardless of the
`songPathMap`; by contrast a GET on an unmapped path (here `/x.flac`,
whose filename does not match the search-fallback pattern) returns 404. -/
theorem claim_C10 :
    (∀ (env : Env) (st : St) (now : Int) (p : String), coverBranch p = false →
      (handleGet env st now p true).1.status = 200 ∧
      (handleGet env st now p true).1.ctype
          = some (if strEnds p ".flac" then "audio/flac" else "audio/mpeg") ∧
      (handleGet env st now p true).1.body = "" ∧
      (handleGet env st now p true).2 = st) ∧
    (handleGet envAnon stEmpty 0 "/x.flac" false).1.status = 404 := by
  constructor
  · intro env st now p hc
    simp [handleGet, hc, audioCtype]
  · decide

theorem claim_C10_witness :
    coverBranch "/a.mp3" = false ∧
    (handleGet envH stEmpty 0 "/a.mp3" true).1.status = 200 :=
  ⟨by decide, (claim_C10.1 envH stEmpty 0 "/a.mp3" (by decide)).1⟩

/-! ## Claims C4 and C7: the COPY/MOVE success path -/

theorem alookup_adel_ne {κ ν : Type} [DecidableEq κ] (k q : κ) (hne : q ≠ k) :
    ∀ m : List (κ × ν), alookup q (adel k m) = alookup q m := by
  intro m
  induction m with
  | nil => simp [adel]
  | cons h t ih =>
    obtain ⟨a, b⟩ := h
    by_cases hk : k = a
    · subst hk
      simp [adel, alookup, hne, ih]
    · simp [adel, alookup, hk, ih]

/-- The success path of `handleCopyMove` in closed form: destination parses,
source resolves, the playlist is found, and the upstream mutation returns
200 or 502. -/
theorem handleCopyMove_success (env : Env) (st : St) (now : Int)
    (urlPath destRaw pName : String) (sid uid : Nat) (pls : List PlaylistInfo)
    (pl : PlaylistInfo) (code : Nat)
    (hdest : destMatch (stripTrail destRaw) = some pName)
    (hsrc : resolveCopySource env st urlPath = .ok (some sid))
    (hprof : env.up.loginProfile = some (some uid))
    (hupl : env.up.userPlaylist uid = some pls)
    (hfind : pls.find? (fun p => cleanName p.name = pName) = some pl)
    (hcode : env.up.addTracks pl.id sid = some code)
    (hok : code = 200 ∨ code = 502) :
    handleCopyMove env st now urlPath (some destRaw) =
      { resp := respOf 201 "Created",
        st := { st with
                propfind := adel (userPlaylistsRoot ++ "/" ++ pName)
                              (adel (stripTrail destRaw) st.propfind),
                playlists := adel pl.id st.playlists,
                userPlaylists := (st.userPlaylists.1, 0) },
        mutated := true } := by
  have hc : (code = 200 || code = 502) = true := by
    rcases hok with h | h <;> simp [h]
  simp [handleCopyMove, hdest, hsrc, hprof, hupl, hfind, hcode, hc]

/-- Source resolution only reads `songPathMap` from the state. -/
theorem resolveCopySource_spm (env : Env) (st st' : St) (urlPath : String)
    (h : st'.songPathMap = st.songPathMap) :
    resolveCopySource env st' urlPath = resolveCopySource env st urlPath := by
  simp [resolveCopySource, h]

/-- C4: idempotent favoriting.  When the source resolves to a song id, the
destination playlist exists, and the upstream add-track mutation returns
either 200 or the "already present" code 502, the handler answers 201;
repeating the identical COPY from the resulting state answers 201 again
(the invalidations of the first call do not touch `songPathMap`, and the
handler re-reads the playlist list from upstream). -/
theorem claim_C4 (env : Env) (st : St) (now : Int)
    (urlPath destRaw pName : String) (sid uid : Nat) (pls : List PlaylistInfo)
    (pl : PlaylistInfo) (code : Nat)
    (hdest : destMatch (stripTrail destRaw) = some pName)
    (hsrc : resolveCopySource env st urlPath = .ok (some sid))
    (hprof : env.up.loginProfile = some (some uid))
    (hupl : env.up.userPlaylist uid = some pls)
    (hfind : pls.find? (fun p => cleanName p.name = pName) = some pl)
    (hcode : env.up.addTracks pl.id sid = some code)
    (hok : code = 200 ∨ code = 502) :
    (handleCopyMove env st now urlPath (some destRaw)).resp.status = 201 ∧
    (handleCopyMove env (handleCopyMove env st now urlPath (some destRaw)).st
        now urlPath (some destRaw)).resp.status = 201 := by
  have h1 := handleCopyMove_success env st now urlPath destRaw pName sid uid pls pl
    code hdest hsrc hprof hupl hfind hcode hok
  refine ⟨by rw [h1]; rfl, ?_⟩
  have hspm : (handleCopyMove env st now urlPath (some destRaw)).st.songPathMap
      = st.songPathMap := by rw [h1]
  have hsrc' : resolveCopySource env (handleCopyMove env st now urlPath (some destRaw)).st
      urlPath = .ok (some sid) := by
    rw [resolveCopySource_spm env st _ urlPath hspm]
    exact hsrc
  have h2 := handleCopyMove_success env
    (handleCopyMove env st now urlPath (some destRaw)).st now urlPath destRaw pName
    sid uid pls pl code hdest hsrc' hprof hupl hfind hcode hok
  rw [h2]
  rfl

def plL : PlaylistInfo := { id := 7, name := "L", updateTime := 0, createTime := 0 }

def upC4 : Upstream := { upHealthy with userPlaylist := fun _ => some [plL] }

def envC4 : Env := { cfg := defaultConfig, up := upC4, userCookie := "c", todayDate := 0 }

def stC4 : St := { stEmpty with songPathMap := [("/我的歌单/L/Song - A.mp3", 42)] }

theorem claim_C4_witness :
    (handleCopyMove envC4 stC4 0 "/我的歌单/L/Song - A.mp3"
        (some "/我的歌单/L")).resp.status = 201 ∧
    (handleCopyMove envC4
        (handleCopyMove envC4 stC4 0 "/我的歌单/L/Song - A.mp3"
          (some "/我的歌单/L")).st
        0 "/我的歌单/L/Song - A.mp3" (some "/我的歌单/L")).resp.status = 201 :=
  claim_C4 envC4 stC4 0 "/我的歌单/L/Song - A.mp3" "/我的歌单/L" "L" 42 1 [plL] plL
    200 (by decide) rfl rfl rfl (by decide) rfl (Or.inl rfl)

/-- C7-counterexample: after a successful favoriting COPY (status 201) the
`songPathMap` entry derived from the mutated playlist is still present —
the handler never invalidates `songPathMap`. -/
theorem claim_C7_counterexample :
    (handleCopyMove envC4 stC4 0 "/我的歌单/L/Song - A.mp3"
        (some "/我的歌单/L")).resp.status = 201 ∧
    alookup "/我的歌单/L/Song - A.mp3"
        (handleCopyMove envC4 stC4 0 "/我的歌单/L/Song - A.mp3"
          (some "/我的歌单/L")).st.songPathMap = some 42 := by
  decide

/-- C7 (amended): a successful favoriting mutation invalidates the
destination's listing-cache entries, the playlist snapshot and the
user-playlists timestamp, but `Path→SongId` entries are never invalidated:
`songPathMap` is returned unchanged. -/
theorem claim_C7 (env : Env) (st : St) (now : Int)
    (urlPath destRaw pName : String) (sid uid : Nat) (pls : List PlaylistInfo)
    (pl : PlaylistInfo) (code : Nat)
    (hdest : destMatch (stripTrail destRaw) = some pName)
    (hsrc : resolveCopySource env st urlPath = .ok (some sid))
    (hprof : env.up.loginProfile = some (some uid))
    (hupl : env.up.userPlaylist uid = some pls)
    (hfind : pls.find? (fun p => cleanName p.name = pName) = some pl)
    (hcode : env.up.addTracks pl.id sid = some code)
    (hok : code = 200 ∨ code = 502) :
    (handleCopyMove env st now urlPath (some destRaw)).resp.status = 201 ∧
    (handleCopyMove env st now urlPath (some destRaw)).st.songPathMap
        = st.songPathMap ∧
    alookup (stripTrail destRaw)
        (handleCopyMove env st now urlPath (some destRaw)).st.propfind = none ∧
    alookup (userPlaylistsRoot ++ "/" ++ pName)
        (handleCopyMove env st now urlPath (some destRaw)).st.propfind = none ∧
    alookup pl.id (handleCopyMove env st now urlPath (some destRaw)).st.playlists
        = none ∧
    (handleCopyMove env st now urlPath (some destRaw)).st.userPlaylists.2 = 0 := by
  have h1 := handleCopyMove_success env st now urlPath destRaw pName sid uid pls pl
    code hdest hsrc hprof hupl hfind hcode hok
  rw [h1]
  refine ⟨rfl, rfl, ?_, ?_, ?_, rfl⟩
  · by_cases he : stripTrail destRaw = userPlaylistsRoot ++ "/" ++ pName
    · rw [he]
      exact alookup_adel_self _ _
    · rw [alookup_adel_ne _ _ he]
      exact alookup_adel_self _ _
  · exact alookup_adel_self _ _
  · exact alookup_adel_self _ _

/-! ## Claims C6 and C9: persistence trace and collision policy -/

theorem chunksGo_congr : ∀ (f₁ f₂ : Nat) (l : List Nat), l.length ≤ f₁ → l.length ≤ f₂ →
    chunksGo f₁ l = chunksGo f₂ l := by
  intro f₁
  induction f₁ with
  | zero =>
    intro f₂ l h1 h2
    have hl : l = [] := List.eq_nil_of_length_eq_zero (Nat.le_zero.mp h1)
    subst hl
    cases f₂ <;> rfl
  | succ f ih =>
    intro f₂ l h1 h2
    cases l with
    | nil => cases f₂ <;> rfl
    | cons x t =>
      cases f₂ with
      | zero => simp at h2
      | succ g =>
        show (x :: t).take 50 :: chunksGo f ((x :: t).drop 50)
            = (x :: t).take 50 :: chunksGo g ((x :: t).drop 50)
        have hlen : ((x :: t).drop 50).length ≤ f := by
          rw [List.length_drop]
          simp only [List.length_cons] at h1 ⊢
          omega
        have hlen2 : ((x :: t).drop 50).length ≤ g := by
          rw [List.length_drop]
          simp only [List.length_cons] at h2 ⊢
          omega
        rw [ih g ((x :: t).drop 50) hlen hlen2]

/-- The slicing loop satisfies its natural recursive equation. -/
theorem chunks50_eq (l : List Nat) :
    chunks50 l = if l = [] then [] else l.take 50 :: chunks50 (l.drop 50) := by
  cases l with
  | nil => rfl
  | cons x t =>
    rw [if_neg (by simp)]
    show (x :: t).take 50 :: chunksGo t.length ((x :: t).drop 50)
        = (x :: t).take 50 :: chunks50 ((x :: t).drop 50)
    unfold chunks50
    rw [chunksGo_congr t.length ((x :: t).drop 50).length ((x :: t).drop 50)
      (by rw [List.length_drop]; simp only [List.length_cons]; omega) le_rfl]

theorem chunks50_flatten_aux : ∀ (n : Nat) (l : List Nat), l.length ≤ n →
    (chunks50 l).flatten = l := by
  intro n
  induction n with
  | zero =>
    intro l h
    have hl : l = [] := List.eq_nil_of_length_eq_zero (Nat.le_zero.mp h)
    subst hl
    rfl
  | succ n ih =>
    intro l h
    rw [chunks50_eq]
    by_cases hl : l = []
    · simp [hl]
    · rw [if_neg hl, List.flatten_cons]
      rw [ih (l.drop 50) (by
        rw [List.length_drop]
        have : 0 < l.length := List.length_pos.mpr hl
        omega)]
      exact List.take_append_drop 50 l

/-- Joining the batches recovers the missing-id list. -/
theorem chunks50_flat (l : List Nat) : (chunks50 l).flatten = l :=
  chunks50_flatten_aux l.length l le_rfl

/-- The batch loop itself never persists the cache. -/
theorem procBatches_count_save (up : Upstream) (now : Int) :
    ∀ (bs : List (List Nat)) (m : List (Nat × Song)),
      (procBatches up now bs m).2.count Ev.save = 0 := by
  intro bs
  induction bs with
  | nil => intro m; rfl
  | cons b t ih =>
    intro m
    unfold procBatches
    cases h : up.songDetail b <;> simp [List.count_cons, ih]

/-- C6 (amended): `getSongsDetails` persists the cache exactly once per
call — after the whole batch loop — and only when at least one id was
missing or stale; the save event is the last event of the call, after
every batch fetch. -/
theorem claim_C6 (env : Env) (now : Int) (songs : List (Nat × Song)) (ids : List Nat) :
    ((getSongsDetails env now songs ids).trace.count Ev.save
        = if missingIds env.cfg now songs ids = [] then 0 else 1) ∧
    (missingIds env.cfg now songs ids ≠ [] →
      (getSongsDetails env now songs ids).trace.getLast? = some Ev.save) := by
  by_cases hm : missingIds env.cfg now songs ids = []
  · exact ⟨by simp [getSongsDetails, hm], fun h => absurd hm h⟩
  · constructor
    · simp [getSongsDetails, hm, List.count_append, procBatches_count_save]
    · intro _
      simp only [getSongsDetails, hm, if_neg hm]
      exact List.getLast?_concat _

/-- C6-counterexample: with 51 cold ids the loop runs two batches but the
cache is persisted only once, after both batches — not once per batch. -/
theorem claim_C6_counterexample :
    (chunks50 (missingIds envBatchesOk.cfg 0 [] ids51)).length = 2 ∧
    (getSongsDetails envBatchesOk 0 [] ids51).trace.count Ev.save = 1 ∧
    (getSongsDetails envBatchesOk 0 [] ids51).trace
      = [Ev.fetch (ids51.take 50) true, Ev.fetch (ids51.drop 50) true, Ev.save] := by
  decide

theorem claim_C6_witness :
    ((getSongsDetails envBatchesOk 0 [] ids51).trace.count Ev.save
        = if missingIds envBatchesOk.cfg 0 [] ids51 = [] then 0 else 1) ∧
    (getSongsDetails envBatchesOk 0 [] ids51).trace.getLast? = some Ev.save :=
  ⟨(claim_C6 envBatchesOk 0 [] ids51).1,
   (claim_C6 envBatchesOk 0 [] ids51).2 (by decide)⟩

/-! ## Claim C5: partial-batch resilience -/

/-- Looking up an id after one batch write: the last returned raw song with
that id wins, absent ids leave the cache binding unchanged. -/
theorem alookup_writeBatch (now : Int) (raws : List RawSong) (m : List (Nat × Song))
    (id : Nat) :
    alookup id (writeBatch now raws m)
      = ((raws.filter (fun r => r.id = id)).getLast?.elim (alookup id m)
          (fun r => some (toSong now r))) := by
  unfold writeBatch
  exact alookup_foldl_aset (fun r => r.id) (fun r => toSong now r) raws m id

theorem writeBatch_not_mem (now : Int) (raws : List RawSong) (m : List (Nat × Song))
    (id : Nat) (h : id ∉ raws.map (fun r => r.id)) :
    alookup id (writeBatch now raws m) = alookup id m := by
  rw [alookup_writeBatch]
  have hf : raws.filter (fun r => r.id = id) = [] := by
    rw [List.filter_eq_nil_iff]
    intro r hr
    simp only [decide_eq_true_eq]
    intro he
    exact h (List.mem_map.mpr ⟨r, hr, he⟩)
  rw [hf]
  rfl

theorem writeBatch_mem (now : Int) (raws : List RawSong) (m : List (Nat × Song))
    (id : Nat) (h : id ∈ raws.map (fun r => r.id)) :
    ∃ s, alookup id (writeBatch now raws m) = some s ∧ s.id = id := by
  rw [alookup_writeBatch]
  obtain ⟨r, hr, he⟩ := List.mem_map.mp h
  have hne : raws.filter (fun r => r.id = id) ≠ [] := by
    intro h0
    have hmem : r ∈ raws.filter (fun r => r.id = id) :=
      List.mem_filter.mpr ⟨hr, by simp [he]⟩
    rw [h0] at hmem
    exact List.not_mem_nil r hmem
  rw [List.getLast?_eq_getLast_of_ne_nil hne]
  simp only [Option.elim_some]
  refine ⟨toSong now ((raws.filter (fun r => r.id = id)).getLast hne), rfl, ?_⟩
  have hmem := List.getLast_mem hne
  have := (List.mem_filter.mp hmem).2
  simpa [toSong] using this

theorem wellBehaved_spec (up : Upstream) (bs : List (List Nat))
    (h : wellBehavedB up bs = true) (b : List Nat) (hb : b ∈ bs)
    (raws : List RawSong) (hr : up.songDetail b = some raws) :
    raws.map (fun r => r.id) = b := by
  have h2 := (List.all_eq_true.mp h) b hb
  rw [hr] at h2
  exact of_decide_eq_true h2

theorem wellBehaved_tail (up : Upstream) (b : List Nat) (t : List (List Nat))
    (h : wellBehavedB up (b :: t) = true) : wellBehavedB up t = true := by
  unfold wellBehavedB at h ⊢
  rw [List.all_cons, Bool.and_eq_true] at h
  exact h.2

/-- Batches whose fetch fails or that do not mention an id never change the
cache binding of that id. -/
theorem procBatches_no_write (up : Upstream) (now : Int) :
    ∀ (bs : List (List Nat)) (m : List (Nat × Song)) (id : Nat),
      wellBehavedB up bs = true →
      (∀ b ∈ bs, up.songDetail b = none ∨ id ∉ b) →
      alookup id (procBatches up now bs m).1 = alookup id m := by
  intro bs
  induction bs with
  | nil => intro m id _ _; rfl
  | cons hd t ih =>
    intro m id hwb h
    have hwbt := wellBehaved_tail up hd t hwb
    cases hs : up.songDetail hd with
    | none =>
      unfold procBatches
      rw [hs]
      exact ih m id hwbt (fun b' hb' => h b' (List.mem_cons_of_mem hd hb'))
    | some raws =>
      unfold procBatches
      rw [hs]
      simp only
      rw [ih (writeBatch now raws m) id hwbt
        (fun b' hb' => h b' (List.mem_cons_of_mem hd hb'))]
      have hmap : raws.map (fun r => r.id) = hd :=
        wellBehaved_spec up (hd :: t) hwb hd (List.mem_cons_self hd t) raws hs
      have hid : id ∉ hd := by
        rcases h hd (List.mem_cons_self hd t) with h0 | h0
        · rw [h0] at hs
          exact absurd hs (by simp)
        · exact h0
      exact writeBatch_not_mem now raws m id (by rw [hmap]; exact hid)

/-- An id of a successfully fetched batch ends up bound to a song with that
id after the whole loop (batches are pairwise disjoint). -/
theorem procBatches_mem (up : Upstream) (now : Int) :
    ∀ (bs : List (List Nat)) (m : List (Nat × Song)) (id : Nat) (b : List Nat)
      (raws : List RawSong),
      wellBehavedB up bs = true → bs.flatten.Nodup →
      b ∈ bs → up.songDetail b = some raws → id ∈ b →
      ∃ s, alookup id (procBatches up now bs m).1 = some s ∧ s.id = id := by
  intro bs
  induction bs with
  | nil => intro m id b raws _ _ hb; exact absurd hb (List.not_mem_nil b)
  | cons hd t ih =>
    intro m id b raws hwb hnd hb hs hid
    have hwbt := wellBehaved_tail up hd t hwb
    rw [List.flatten_cons, List.nodup_append] at hnd
    obtain ⟨hnd1, hnd2, hdisj⟩ := hnd
    rcases List.mem_cons.mp hb with heq | hmem
    · subst heq
      unfold procBatches
      rw [hs]
      simp only
      have hmap : raws.map (fun r => r.id) = b :=
        wellBehaved_spec up (b :: t) hwb b (List.mem_cons_self b t) raws hs
      obtain ⟨s, hsome, hsid⟩ :=
        writeBatch_mem now raws m id (by rw [hmap]; exact hid)
      have hnot : ∀ b' ∈ t, up.songDetail b' = none ∨ id ∉ b' := by
        intro b' hb'
        right
        intro hid'
        exact hdisj hid (List.mem_flatten.mpr ⟨b', hb', hid'⟩)
      rw [procBatches_no_write up now t (writeBatch now raws m) id hwbt hnot]
      exact ⟨s, hsome, hsid⟩
    · cases hshd : up.songDetail hd with
      | none =>
        unfold procBatches
        rw [hshd]
        exact ih m id b raws hwbt hnd2 hmem hs hid
      | some raws0 =>
        unfold procBatches
        rw [hshd]
        exact ih (writeBatch now raws0 m) id b raws hwbt hnd2 hmem hs hid

/-- The ids of a failed batch keep their previous cache binding across the
whole loop. -/
theorem procBatches_failed_unchanged (up : Upstream) (now : Int) :
    ∀ (bs : List (List Nat)) (m : List (Nat × Song)) (id : Nat) (bf : List Nat),
      wellBehavedB up bs = true → bs.flatten.Nodup →
      bf ∈ bs → up.songDetail bf = none → id ∈ bf →
      alookup id (procBatches up now bs m).1 = alookup id m := by
  intro bs
  induction bs with
  | nil => intro m id bf _ _ hb; exact absurd hb (List.not_mem_nil bf)
  | cons hd t ih =>
    intro m id bf hwb hnd hb hs hid
    have hwbt := wellBehaved_tail up hd t hwb
    rw [List.flatten_cons, List.nodup_append] at hnd
    obtain ⟨hnd1, hnd2, hdisj⟩ := hnd
    rcases List.mem_cons.mp hb with heq | hmem
    · subst heq
      unfold procBatches
      rw [hs]
      have hnot : ∀ b' ∈ t, up.songDetail b' = none ∨ id ∉ b' := by
        intro b' hb'
        right
        intro hid'
        exact hdisj hid (List.mem_flatten.mpr ⟨b', hb', hid'⟩)
      exact procBatches_no_write up now t m id hwbt hnot
    · have hidhd : id ∉ hd := by
        intro hinhd
        exact hdisj hinhd (List.mem_flatten.mpr ⟨bf, hmem, hid⟩)
      cases hshd : up.songDetail hd with
      | none =>
        unfold procBatches
        rw [hshd]
        exact ih m id bf hwbt hnd2 hmem hs hid
      | some raws0 =>
        unfold procBatches
        rw [hshd]
        simp only
        rw [ih (writeBatch now raws0 m) id bf hwbt hnd2 hmem hs hid]
        have hmap : raws0.map (fun r => r.id) = hd :=
          wellBehaved_spec up (hd :: t) hwb hd (List.mem_cons_self hd t) raws0 hshd
        exact writeBatch_not_mem now raws0 m id (by rw [hmap]; exact hidhd)

/-- C5: partial-batch resilience.  With duplicate-free requested ids and a
well-behaved upstream, if one batch of a multi-batch fetch fails while
another succeeds, every id of the succeeding batch appears (with its
fetched song) in the returned details, and every id of the failing batch
keeps its previous cache binding (absent or stale); the call itself is
total and never a hard failure. -/
theorem claim_C5 (env : Env) (now : Int) (songs : List (Nat × Song)) (ids : List Nat)
    (b bf : List Nat) (raws : List RawSong)
    (hnd : ids.Nodup)
    (hwb : wellBehavedB env.up (chunks50 (missingIds env.cfg now songs ids)) = true)
    (hb : b ∈ chunks50 (missingIds env.cfg now songs ids))
    (hraws : env.up.songDetail b = some raws)
    (hbf : bf ∈ chunks50 (missingIds env.cfg now songs ids))
    (hfail : env.up.songDetail bf = none) :
    (∀ id ∈ b, ∃ s, s ∈ (getSongsDetails env now songs ids).details ∧ s.id = id) ∧
    (∀ id ∈ bf,
      alookup id (getSongsDetails env now songs ids).songs = alookup id songs) := by
  have hmne : missingIds env.cfg now songs ids ≠ [] := by
    intro h0
    rw [h0] at hb
    exact absurd hb (List.not_mem_nil b)
  have hflat := chunks50_flat (missingIds env.cfg now songs ids)
  have hndf : (chunks50 (missingIds env.cfg now songs ids)).flatten.Nodup := by
    rw [hflat]
    exact hnd.filter _
  constructor
  · intro id hid
    obtain ⟨s, hsome, hsid⟩ := procBatches_mem env.up now
      (chunks50 (missingIds env.cfg now songs ids)) songs id b raws hwb hndf hb
      hraws hid
    refine ⟨s, ?_, hsid⟩
    have hin : id ∈ ids := by
      have hm : id ∈ missingIds env.cfg now songs ids := by
        rw [← hflat]
        exact List.mem_flatten.mpr ⟨b, hb, hid⟩
      exact List.mem_of_mem_filter hm
    simp only [getSongsDetails, hmne, if_neg hmne]
    exact List.mem_filterMap.mpr ⟨id, hin, hsome⟩
  · intro id hid
    have h2 := procBatches_failed_unchanged env.up now
      (chunks50 (missingIds env.cfg now songs ids)) songs id bf hwb hndf hbf
      hfail hid
    simp only [getSongsDetails, hmne, if_neg hmne]
    exact h2

theorem claim_C5_witness :
    (∃ s, s ∈ (getSongsDetails envFirstBatchFails 0 [] ids51).details ∧ s.id = 50) ∧
    alookup 0 (getSongsDetails envFirstBatchFails 0 [] ids51).songs
      = alookup 0 ([] : List (Nat × Song)) :=
  ⟨(claim_C5 envFirstBatchFails 0 [] ids51 [50] (ids51.take 50) [rawOf 50]
      (by exact List.nodup_range 51) (by decide) (by decide) (by decide) (by decide)
      (by decide)).1 50 (by decide),
   (claim_C5 envFirstBatchFails 0 [] ids51 [50] (ids51.take 50) [rawOf 50]
      (by exact List.nodup_range 51) (by decide) (by decide) (by decide) (by decide)
      (by decide)).2 0 (by decide)⟩

/-! ## Claim C8: directory-listing cache freshness -/

theorem getDailyIds_ok (env : Env) (st : St) (now : Int) (h : Healthy env.up) :
    ∃ v st₁, getDailyIds env st now = .ok (v, st₁) := by
  unfold getDailyIds
  split
  · exact ⟨_, _, rfl⟩
  · obtain ⟨ids, hi⟩ := h.daily
    rw [hi]
    exact ⟨_, _, rfl⟩

theorem getRecommendPlaylists_ok (env : Env) (st : St) (now : Int)
    (h : Healthy env.up) :
    ∃ v st₁, getRecommendPlaylists env st now = .ok (v, st₁) := by
  unfold getRecommendPlaylists
  split
  · exact ⟨_, _, rfl⟩
  · obtain ⟨pls, hi⟩ := h.recres
    rw [hi]
    exact ⟨_, _, rfl⟩

theorem getUserPlaylists_ok (env : Env) (st : St) (now : Int) (h : Healthy env.up) :
    ∃ v st₁, getUserPlaylists env st now = .ok (v, st₁) := by
  unfold getUserPlaylists
  split
  · exact ⟨_, _, rfl⟩
  · obtain ⟨uid, hp⟩ := h.profile
    obtain ⟨pls, hu⟩ := h.upl uid
    simp only [hp, hu]
    exact ⟨_, _, rfl⟩

theorem getSnapshot_ok (env : Env) (st : St) (now : Int) (plId : Nat)
    (plName : String) (upd : Int) (h : Healthy env.up) :
    ∃ cp st₁, getSnapshot env st now plId plName upd = .ok (cp, st₁) := by
  have hre : ∃ cp st₁, refetchSnapshot env st now plId plName upd = .ok (cp, st₁) := by
    unfold refetchSnapshot
    obtain ⟨ts, hp⟩ := h.pdetail plId
    simp only [hp]
    exact ⟨_, _, rfl⟩
  unfold getSnapshot
  cases halk : alookup plId st.playlists with
  | none => exact hre
  | some cp =>
    show ∃ cp1 st₁,
      (if now - cp.timestamp > env.cfg.refreshInterval then
        refetchSnapshot env st now plId plName upd
      else Except.ok (cp, st)) = Except.ok (cp1, st₁)
    by_cases hst : now - cp.timestamp > env.cfg.refreshInterval
    · rw [if_pos hst]
      exact hre
    · rw [if_neg hst]
      exact ⟨_, _, rfl⟩

theorem listPlaylistSongs_ok (env : Env) (st : St) (now : Int)
    (urlPath plName : String) (cp : CachedPlaylist) :
    ∃ rs st₁, listPlaylistSongs env st now urlPath plName cp = .ok rs st₁ :=
  ⟨_, _, rfl⟩

/-- Healthy upstream and a directory-class path: the resource-building
phase of `handlePropfind` succeeds. -/
theorem renderResources_ok (env : Env) (st : St) (now : Int) (p : String)
    (h : Healthy env.up) (hdir : isDirPath p = true) :
    ∃ rs st₁, renderResources env st now p = .ok rs st₁ := by
  unfold renderResources
  by_cases h1 : p = "/"
  · rw [if_pos h1]
    exact ⟨_, _, rfl⟩
  rw [if_neg h1]
  by_cases h2 : p = dailySongsRoot
  · rw [if_pos h2]
    unfold renderDailySongs
    obtain ⟨v, st₁, hg⟩ := getDailyIds_ok env st now h
    simp only [hg]
    exact ⟨_, _, rfl⟩
  rw [if_neg h2]
  by_cases h3 : p = dailyPlaylistsRoot
  · rw [if_pos h3]
    unfold renderDailyPlaylists
    obtain ⟨v, st₁, hg⟩ := getRecommendPlaylists_ok env st now h
    simp only [hg]
    exact ⟨_, _, rfl⟩
  rw [if_neg h3]
  by_cases h4 : strStarts p (dailyPlaylistsRoot ++ "/") = true
  · rw [if_pos h4]
    unfold renderDailyPlaylistDir
    obtain ⟨v, st₁, hg⟩ := getRecommendPlaylists_ok env st now h
    simp only [hg]
    cases hf : v.find? (fun q => cleanName q.name = strDropN p 8) with
    | none => exact ⟨[], st₁, by simp only [hf]⟩
    | some q =>
      obtain ⟨cp, st₂, hs⟩ := getSnapshot_ok env st₁ now q.id q.name
        (jsOr q.updateTime q.createTime) h
      obtain ⟨rs, st₃, hl⟩ := listPlaylistSongs_ok env st₂ now p (strDropN p 8) cp
      exact ⟨rs, st₃, by simp only [hf, hs, hl]⟩
  rw [if_neg h4]
  by_cases h5 : p = userPlaylistsRoot
  · rw [if_pos h5]
    unfold renderUserPlaylists
    obtain ⟨v, st₁, hg⟩ := getUserPlaylists_ok env st now h
    simp only [hg]
    exact ⟨_, _, rfl⟩
  rw [if_neg h5]
  by_cases h6 : strStarts p (userPlaylistsRoot ++ "/") = true
  · rw [if_pos h6]
    unfold renderUserPlaylistDir
    obtain ⟨v, st₁, hg⟩ := getUserPlaylists_ok env st now h
    simp only [hg]
    cases hf : v.find? (fun q => cleanName q.name = strDropN p 6) with
    | none => exact ⟨[], st₁, by simp only [hf]⟩
    | some q =>
      obtain ⟨cp, st₂, hs⟩ := getSnapshot_ok env st₁ now q.id q.name q.updateTime h
      obtain ⟨rs, st₃, hl⟩ := listPlaylistSongs_ok env st₂ now p (strDropN p 6) cp
      exact ⟨rs, st₃, by simp only [hf, hs, hl]⟩
  · exfalso
    unfold isDirPath at hdir
    rcases Bool.or_eq_true_iff.mp hdir with h0 | h0
    · rcases Bool.or_eq_true_iff.mp h0 with h7 | h7
      · rcases Bool.or_eq_true_iff.mp h7 with h8 | h8
        · rcases Bool.or_eq_true_iff.mp h8 with h9 | h9
          · rcases Bool.or_eq_true_iff.mp h9 with h10 | h10
            · exact h1 (by simpa using h10)
            · exact h2 (by simpa using h10)
          · exact h3 (by simpa using h9)
        · exact h4 h8
      · exact h5 (by simpa using h7)
    · exact h6 h0

/-- A healthy rendered PROPFIND on a directory path answers 207 and stores
the serialized listing under the requested path with timestamp `now`. -/
theorem handlePropfind_healthy (env : Env) (st : St) (now : Int) (p : String)
    (h : Healthy env.up) (hdir : isDirPath p = true) :
    (handlePropfind env st now p).resp.status = 207 ∧
    alookup p (handlePropfind env st now p).st.propfind
      = some ⟨(handlePropfind env st now p).resp.body, now⟩ := by
  obtain ⟨rs, st₁, hr⟩ := renderResources_ok env st now p h hdir
  simp [handlePropfind, hr, alookup_aset_self]

/-- C8: cache freshness.  While a stored listing for a path is younger
than `refreshInterval`, a PROPFIND returns exactly the stored serialized
payload without invoking the renderer and without touching the state;
once the entry is stale or absent, a listing of a directory path under a
healthy upstream re-renders, answers 207, and stores the new payload with
timestamp `now`. -/
theorem claim_C8 (env : Env) (st : St) (now : Int) (D : String)
    (hlog : checkLogin env = true) :
    (∀ e, alookup (normPath D) st.propfind = some e →
      now - e.timestamp < env.cfg.refreshInterval →
      (dispatch env st now ⟨"PROPFIND", D, none⟩).resp.status = 207 ∧
      (dispatch env st now ⟨"PROPFIND", D, none⟩).resp.body = e.xml ∧
      (dispatch env st now ⟨"PROPFIND", D, none⟩).rendered = false ∧
      (dispatch env st now ⟨"PROPFIND", D, none⟩).st = st) ∧
    ((∀ e, alookup (normPath D) st.propfind = some e →
        ¬(now - e.timestamp < env.cfg.refreshInterval)) →
      isDirPath (normPath D) = true → Healthy env.up →
      (dispatch env st now ⟨"PROPFIND", D, none⟩).rendered = true ∧
      (dispatch env st now ⟨"PROPFIND", D, none⟩).resp.status = 207 ∧
      alookup (normPath D) (dispatch env st now ⟨"PROPFIND", D, none⟩).st.propfind
        = some ⟨(dispatch env st now ⟨"PROPFIND", D, none⟩).resp.body, now⟩) := by
  constructor
  · intro e he hfresh
    simp [dispatch, hlog, he, hfresh]
  · intro hstale hdir hh
    have h1 := handlePropfind_healthy env st now (normPath D) hh hdir
    cases halk : alookup (normPath D) st.propfind with
    | none => simpa [dispatch, hlog, halk] using h1
    | some e =>
      have hnf := hstale e halk
      simpa [dispatch, hlog, halk, hnf] using h1

theorem claim_C8_witness :
    (dispatch envH stEmpty 0 ⟨"PROPFIND", "/", none⟩).rendered = true ∧
    (dispatch envH stEmpty 0 ⟨"PROPFIND", "/", none⟩).resp.status = 207 :=
  ⟨((claim_C8 envH stEmpty 0 "/" rfl).2
      (fun e he => absurd
        (by rw [show alookup (normPath "/") stEmpty.propfind = (none : Option PfEntry)
                  from rfl] at he; exact he)
        (by simp))
      (by decide)
      ⟨⟨1, rfl⟩, ⟨[], rfl⟩, ⟨[], rfl⟩, fun uid => ⟨[], rfl⟩,
        fun pid => ⟨[], rfl⟩⟩).1,
   ((claim_C8 envH stEmpty 0 "/" rfl).2
      (fun e he => absurd
        (by rw [show alookup (normPath "/") stEmpty.propfind = (none : Option PfEntry)
                  from rfl] at he; exact he)
        (by simp))
      (by decide)
      ⟨⟨1, rfl⟩, ⟨[], rfl⟩, ⟨[], rfl⟩, fun uid => ⟨[], rfl⟩,
        fun pid => ⟨[], rfl⟩⟩).2.1⟩

/-- C9: filename-collision last-write-wins.  If exactly the two songs `a`
then `b` of a listed directory synthesize the path `p`, the `songPathMap`
left by the listing traversal maps `p` to the id of `b`, the later song —
the second write silently overwrites the first. -/
theorem claim_C9 (cfg : Config) (base : String) (spm : List (String × Nat))
    (details : List Song) (p : String) (a b : Song)
    (hcol : details.filter (fun s => songFullPath cfg base s = p) = [a, b]) :
    alookup p (spmAfter cfg base details spm) = some b.id := by
  unfold spmAfter
  rw [alookup_foldl_aset (fun s => songFullPath cfg base s) (fun s => s.id) details spm p]
  rw [hcol]
  rfl

def songA : Song :=
  { id := 1, name := "X?", ar := "A", al := "", picUrl := "", publishTime := 0,
    timestamp := 0 }

def songB : Song :=
  { id := 2, name := "X_", ar := "A", al := "", picUrl := "", publishTime := 0,
    timestamp := 0 }

theorem claim_C9_witness :
    alookup "/每日推荐歌曲/X_ - A.mp3"
      (spmAfter defaultConfig "/每日推荐歌曲" [songA, songB] []) = some 2 :=
  claim_C9 defaultConfig "/每日推荐歌曲" [] [songA, songB] "/每日推荐歌曲/X_ - A.mp3"
    songA songB (by decide)

/-! ## Claim C1: string-level helper lemmas -/

theorem str_eq_empty_of_data_nil (s : String) (h : s.data = []) : s = "" := by
  cases s with
  | mk l =>
    cases h
    rfl

theorem bsToSlash_id (s : String) (h : '\\' ∉ s.data) : bsToSlash s = s := by
  unfold bsToSlash
  have hmap : s.data.map (fun c => if c = '\\' then '/' else c) = s.data := by
    have h2 : ∀ c ∈ s.data, (if c = '\\' then '/' else c) = id c := by
      intro c hc
      have hcne : c ≠ '\\' := fun he => h (he ▸ hc)
      simp [hcne]
    rw [List.map_congr_left h2, List.map_id]
  rw [hmap]

theorem cleanName_no_slash (s : String) : '/' ∉ (cleanName s).data :=
  isBad_not_mem_cleanName s '/' (by decide)

theorem cleanName_no_bslash (s : String) : '\\' ∉ (cleanName s).data :=
  isBad_not_mem_cleanName s '\\' (by decide)

theorem songFilename_no_slash (cfg : Config) (t a : String) :
    '/' ∉ (songFilename cfg t a).data :=
  isBad_not_mem_songFilename cfg t a '/' (by decide)

theorem songFilename_no_bslash (cfg : Config) (t a : String) :
    '\\' ∉ (songFilename cfg t a).data :=
  isBad_not_mem_songFilename cfg t a '\\' (by decide)

theorem songFilename_ends (cfg : Config) (t a : String) :
    (strEnds (songFilename cfg t a) ".mp3"
      || strEnds (songFilename cfg t a) ".flac") = true := by
  unfold songFilename
  by_cases hq : (cfg.quality = "lossless" || cfg.quality = "hires"
      || cfg.quality = "jymaster") = true
  · have he : getExtension cfg = ".flac" := by
      unfold getExtension
      rw [if_pos hq]
    rw [he]
    exact Bool.or_eq_true_iff.mpr (Or.inr (strEnds_append _ _))
  · have he : getExtension cfg = ".mp3" := by
      unfold getExtension
      rw [if_neg hq]
    rw [he]
    exact Bool.or_eq_true_iff.mpr (Or.inl (strEnds_append _ _))

theorem strEnds_extend (pre s post : String) (h : strEnds s post = true) :
    strEnds (pre ++ s) post = true := by
  unfold strEnds at h ⊢
  rw [String.data_append, List.reverse_append]
  exact prefixB_append_right post.data.reverse s.data.reverse pre.data.reverse h

theorem strStarts_extend (s pre x : String) (h : strStarts s pre = true) :
    strStarts (s ++ x) pre = true := by
  unfold strStarts at h ⊢
  rw [String.data_append]
  exact prefixB_append_right pre.data s.data x.data h

/-- A path ending in an audio extension never takes the cover branch. -/
theorem cover_false_of_ends_ext (p : String)
    (h : (strEnds p ".mp3" || strEnds p ".flac") = true) : coverBranch p = false := by
  have e1 : (".mp3" : String).data.reverse = '3' :: ['p', 'm', '.'] := rfl
  have e2 : (".flac" : String).data.reverse = 'c' :: ['a', 'l', 'f', '.'] := rfl
  have e3 : ("/cover.jpg" : String).data.reverse
      = 'g' :: ['p', 'j', '.', 'r', 'e', 'v', 'o', 'c', '/'] := rfl
  have e4 : ("/folder.jpg" : String).data.reverse
      = 'g' :: ['p', 'j', '.', 'r', 'e', 'd', 'l', 'o', 'f', '/'] := rfl
  unfold coverBranch
  refine Bool.or_eq_false_iff.mpr ⟨?_, ?_⟩
  · apply Bool.eq_false_iff.mpr
    intro h2
    unfold strEnds at h2
    rw [e3] at h2
    rcases Bool.or_eq_true_iff.mp h with h1 | h1 <;> unfold strEnds at h1
    · rw [e1] at h1
      exact absurd (prefixB_head h1 h2) (by decide)
    · rw [e2] at h1
      exact absurd (prefixB_head h1 h2) (by decide)
  · apply Bool.eq_false_iff.mpr
    intro h2
    unfold strEnds at h2
    rw [e4] at h2
    rcases Bool.or_eq_true_iff.mp h with h1 | h1 <;> unfold strEnds at h1
    · rw [e1] at h1
      exact absurd (prefixB_head h1 h2) (by decide)
    · rw [e2] at h1
      exact absurd (prefixB_head h1 h2) (by decide)

/-- The child path under a non-root directory, when neither part contains a
backslash, is plain concatenation. -/
theorem childPath_eq (uD : String) (r : Resource)
    (hu : '\\' ∉ uD.data) (hn : '\\' ∉ r.name.data) (hroot : uD ≠ "/") :
    childPath uD r = uD ++ "/" ++ r.name := by
  unfold childPath
  rw [if_neg hroot]
  apply bsToSlash_id
  intro hc
  rw [String.data_append, String.data_append] at hc
  rcases List.mem_append.mp hc with h1 | h1
  · rcases List.mem_append.mp h1 with h2 | h2
    · exact hu h2
    · simp at h2
  · exact hn h1

theorem childPath_eq_root (r : Resource) (hn : '\\' ∉ r.name.data) :
    childPath "/" r = "/" ++ r.name := by
  unfold childPath
  rw [if_pos rfl]
  apply bsToSlash_id
  intro hc
  rw [String.data_append, String.data_append] at hc
  rcases List.mem_append.mp hc with h1 | h1
  · rcases List.mem_append.mp h1 with h2 | h2
    · simp at h2
    · simp at h2
  · exact hn h1

/-- The data of a child path: the serialized prefix and the transformed
name. -/
theorem childPath_data (uD : String) (r : Resource) :
    (childPath uD r).data
      = (((if uD = "/" then "" else uD) ++ "/").data ++ r.name.data).map
          (fun c => if c = '\\' then '/' else c) := by
  unfold childPath bsToSlash
  show (((if uD = "/" then "" else uD) ++ "/" ++ r.name).data).map _ = _
  rw [String.data_append]

/-- A nonempty, separator-free child name keeps its path stable under the
trailing-slash normalization of the dispatcher. -/
theorem normPath_childPath (uD : String) (r : Resource) (hne : r.name ≠ "")
    (h1 : '/' ∉ r.name.data) (h2 : '\\' ∉ r.name.data) :
    normPath (childPath uD r) = childPath uD r := by
  obtain ⟨c, cs, hrev⟩ : ∃ c cs, r.name.data.reverse = c :: cs := by
    cases hd : r.name.data.reverse with
    | nil =>
      exfalso
      apply hne
      apply str_eq_empty_of_data_nil
      rwa [List.reverse_eq_nil_iff] at hd
    | cons c cs => exact ⟨c, cs, rfl⟩
  have hlast : c ∈ r.name.data := by
    rw [← List.mem_reverse, hrev]
    exact List.mem_cons_self c cs
  have hfc : (if c = '\\' then '/' else c) ≠ '/' := by
    intro hcc
    by_cases hb : c = '\\'
    · exact h2 (hb ▸ hlast)
    · rw [if_neg hb] at hcc
      exact h1 (hcc ▸ hlast)
  have hrevp : (childPath uD r).data.reverse
      = (if c = '\\' then '/' else c)
        :: (cs.map (fun c => if c = '\\' then '/' else c)
            ++ (((if uD = "/" then "" else uD) ++ "/").data.reverse).map
                (fun c => if c = '\\' then '/' else c)) := by
    rw [childPath_data, ← List.map_reverse, List.reverse_append, hrev]
    simp [List.map_append]
  have hends : strEnds (childPath uD r) "/" = false := by
    unfold strEnds
    rw [hrevp]
    show prefixB ['/'] _ = false
    have h3 : ('/' : Char) ≠ (if c = '\\' then '/' else c) := fun he => hfc he.symm
    simp [prefixB, h3]
  have hne2 : childPath uD r ≠ "" := by
    intro h0
    have hd : (childPath uD r).data.reverse = [] := by
      rw [h0]
      rfl
    rw [hrevp] at hd
    exact List.noConfusion hd
  unfold normPath
  rw [hends]
  simp [hne2]

theorem isDirPath_of_prefix_daily (p : String)
    (h : strStarts p (dailyPlaylistsRoot ++ "/") = true) : isDirPath p = true := by
  simp [isDirPath, h]

theorem isDirPath_of_prefix_user (p : String)
    (h : strStarts p (userPlaylistsRoot ++ "/") = true) : isDirPath p = true := by
  simp [isDirPath, h]

/-- A song listed under `base` is registered by the listing traversal. -/
theorem alookup_spmAfter_isSome (cfg : Config) (base : String) (ds : List Song)
    (spm : List (String × Nat)) (s : Song) (hs : s ∈ ds) :
    (alookup (songFullPath cfg base s) (spmAfter cfg base ds spm)).isSome = true := by
  unfold spmAfter
  rw [alookup_foldl_aset (fun x => songFullPath cfg base x) (fun x => x.id) ds spm _]
  have hne : ds.filter (fun x => songFullPath cfg base x = songFullPath cfg base s)
      ≠ [] := by
    intro h0
    have hmem : s ∈ ds.filter
        (fun x => songFullPath cfg base x = songFullPath cfg base s) :=
      List.mem_filter.mpr ⟨hs, by simp⟩
    rw [h0] at hmem
    exact List.not_mem_nil s hmem
  rw [List.getLast?_eq_getLast_of_ne_nil hne]
  rfl

/-! ## Claim C1: children of each listing branch -/

theorem rootResources_children (env : Env) (spm : List (String × Nat)) :
    ∀ r ∈ rootResources env, r.name ≠ "" → ChildFacts spm "/" r := by
  intro r hr hne
  unfold rootResources at hr
  simp only [List.mem_cons, List.not_mem_nil, or_false] at hr
  rcases hr with h | h | h | h
  · subst h
    exact absurd rfl hne
  · subst h
    refine ⟨show '/' ∉ ("每日推荐歌曲" : String).data by decide,
      show '\\' ∉ ("每日推荐歌曲" : String).data by decide,
      Or.inr (Or.inl ?_), fun hk => by simp [collRes] at hk⟩
    have hcp : childPath "/" (collRes "每日推荐歌曲" env.todayDate) = "/每日推荐歌曲" := rfl
    rw [hcp]
    decide
  · subst h
    refine ⟨show '/' ∉ ("每日推荐歌单" : String).data by decide,
      show '\\' ∉ ("每日推荐歌单" : String).data by decide,
      Or.inr (Or.inl ?_), fun hk => by simp [collRes] at hk⟩
    have hcp : childPath "/" (collRes "每日推荐歌单" env.todayDate) = "/每日推荐歌单" := rfl
    rw [hcp]
    decide
  · subst h
    refine ⟨show '/' ∉ ("我的歌单" : String).data by decide,
      show '\\' ∉ ("我的歌单" : String).data by decide,
      Or.inr (Or.inl ?_), fun hk => by simp [collRes] at hk⟩
    have hcp : childPath "/" (collRes "我的歌单" env.todayDate) = "/我的歌单" := rfl
    rw [hcp]
    decide

theorem renderDailySongs_children (env : Env) (st : St) (now : Int)
    (rs : List Resource) (st₁ : St)
    (h : renderDailySongs env st now = .ok rs st₁) :
    ∀ r ∈ rs, r.name ≠ "" → ChildFacts st₁.songPathMap dailySongsRoot r := by
  unfold renderDailySongs at h
  cases hgt : getDailyIds env st now with
  | error st2 =>
    rw [hgt] at h
    simp at h
  | ok v =>
    obtain ⟨songIds, stA⟩ := v
    rw [hgt] at h
    simp only [RenderOut.ok.injEq] at h
    obtain ⟨h1, h2⟩ := h
    subst h1
    subst h2
    intro r hr hne
    rcases List.mem_cons.mp hr with heq | hmem
    · subst heq
      refine ⟨show '/' ∉ ("每日推荐歌曲" : String).data by decide,
        show '\\' ∉ ("每日推荐歌曲" : String).data by decide,
        Or.inl rfl, fun hk => by simp [collRes] at hk⟩
    · obtain ⟨s, hs, hrs⟩ := List.mem_map.mp hmem
      subst hrs
      have hnb := songFilename_no_bslash env.cfg s.name s.ar
      have hns := songFilename_no_slash env.cfg s.name s.ar
      have hcp : childPath dailySongsRoot
          (songResource env.cfg (jsOr s.publishTime env.todayDate) s)
          = songFullPath env.cfg dailySongsRoot s := by
        rw [childPath_eq dailySongsRoot _ (by decide) hnb (by decide)]
        rfl
      exact ⟨hns, hnb,
        Or.inr (Or.inr (by
          rw [hcp]
          exact alookup_spmAfter_isSome env.cfg dailySongsRoot _ _ s hs)),
        fun _ => ⟨by
          rw [hcp]
          exact alookup_spmAfter_isSome env.cfg dailySongsRoot _ _ s hs,
          songFilename_ends env.cfg s.name s.ar⟩⟩

theorem claim_C7_witness :
    (handleCopyMove envC4 stC4 0 "/我的歌单/L/Song - A.mp3"
        (some "/我的歌单/L")).st.songPathMap = stC4.songPathMap ∧
    alookup 7 (handleCopyMove envC4 stC4 0 "/我的歌单/L/Song - A.mp3"
        (some "/我的歌单/L")).st.playlists = none :=
  ⟨(claim_C7 envC4 stC4 0 "/我的歌单/L/Song - A.mp3" "/我的歌单/L" "L" 42 1 [plL]
      plL 200 (by decide) rfl rfl rfl (by decide) rfl (Or.inl rfl)).2.1,
   (claim_C7 envC4 stC4 0 "/我的歌单/L/Song - A.mp3" "/我的歌单/L" "L" 42 1 [plL]
      plL 200 (by decide) rfl rfl rfl (by decide) rfl (Or.inl rfl)).2.2.2.2.1⟩

/-! ## Claim C1: children of each listing branch (directory cases) -/

theorem renderDailyPlaylists_children (env : Env) (st : St) (now : Int)
    (rs : List Resource) (st₁ : St)
    (h : renderDailyPlaylists env st now = .ok rs st₁) :
    ∀ r ∈ rs, r.name ≠ "" → ChildFacts st₁.songPathMap dailyPlaylistsRoot r := by
  unfold renderDailyPlaylists at h
  cases hgt : getRecommendPlaylists env st now with
  | error st2 =>
    rw [hgt] at h
    simp at h
  | ok v =>
    obtain ⟨pls, stA⟩ := v
    rw [hgt] at h
    simp only [RenderOut.ok.injEq] at h
    obtain ⟨h1, h2⟩ := h
    subst h1
    subst h2
    intro r hr hne
    rcases List.mem_cons.mp hr with heq | hmem
    · subst heq
      refine ⟨show '/' ∉ ("每日推荐歌单" : String).data by decide,
        show '\\' ∉ ("每日推荐歌单" : String).data by decide,
        Or.inr (Or.inl ?_), fun hk => by simp [collRes] at hk⟩
      have hcp : childPath dailyPlaylistsRoot (collRes "每日推荐歌单" env.todayDate)
          = "/每日推荐歌单/每日推荐歌单" := rfl
      rw [hcp]
      decide
    · obtain ⟨q, hq, hrq⟩ := List.mem_map.mp hmem
      subst hrq
      have hns := cleanName_no_slash q.name
      have hnb := cleanName_no_bslash q.name
      have hcp : childPath dailyPlaylistsRoot
          (collRes (cleanName q.name) (jsOr q.createTime env.todayDate))
          = dailyPlaylistsRoot ++ "/" ++ cleanName q.name :=
        childPath_eq dailyPlaylistsRoot _ (by decide) hnb (by decide)
      refine ⟨hns, hnb, Or.inr (Or.inl ?_), fun hk => by simp [collRes] at hk⟩
      rw [hcp]
      exact isDirPath_of_prefix_daily _
        (strStarts_append (dailyPlaylistsRoot ++ "/") (cleanName q.name))

theorem renderUserPlaylists_children (env : Env) (st : St) (now : Int)
    (rs : List Resource) (st₁ : St)
    (h : renderUserPlaylists env st now = .ok rs st₁) :
    ∀ r ∈ rs, r.name ≠ "" → ChildFacts st₁.songPathMap userPlaylistsRoot r := by
  unfold renderUserPlaylists at h
  cases hgt : getUserPlaylists env st now with
  | error st2 =>
    rw [hgt] at h
    simp at h
  | ok v =>
    obtain ⟨pls, stA⟩ := v
    rw [hgt] at h
    simp only [RenderOut.ok.injEq] at h
    obtain ⟨h1, h2⟩ := h
    subst h1
    subst h2
    intro r hr hne
    rcases List.mem_cons.mp hr with heq | hmem
    · subst heq
      refine ⟨show '/' ∉ ("我的歌单" : String).data by decide,
        show '\\' ∉ ("我的歌单" : String).data by decide,
        Or.inr (Or.inl ?_), fun hk => by simp [collRes] at hk⟩
      have hcp : childPath userPlaylistsRoot (collRes "我的歌单" env.todayDate)
          = "/我的歌单/我的歌单" := rfl
      rw [hcp]
      decide
    · obtain ⟨q, hq, hrq⟩ := List.mem_map.mp hmem
      subst hrq
      have hns := cleanName_no_slash q.name
      have hnb := cleanName_no_bslash q.name
      have hcp : childPath userPlaylistsRoot
          (collRes (cleanName q.name) (jsOr q.updateTime env.todayDate))
          = userPlaylistsRoot ++ "/" ++ cleanName q.name :=
        childPath_eq userPlaylistsRoot _ (by decide) hnb (by decide)
      refine ⟨hns, hnb, Or.inr (Or.inl ?_), fun hk => by simp [collRes] at hk⟩
      rw [hcp]
      exact isDirPath_of_prefix_user _
        (strStarts_append (userPlaylistsRoot ++ "/") (cleanName q.name))

theorem listPlaylistSongs_children (env : Env) (stA : St) (now : Int)
    (uD plName : String) (cp : CachedPlaylist) (rs : List Resource) (st₁ : St)
    (root : String)
    (h : listPlaylistSongs env stA now uD plName cp = .ok rs st₁)
    (hstarts : strStarts uD (root ++ "/") = true)
    (hub : '\\' ∉ uD.data)
    (hune : uD ≠ "/")
    (hpns : '/' ∉ plName.data) (hpnb : '\\' ∉ plName.data)
    (hrootdir : ∀ q : String, strStarts q (root ++ "/") = true → isDirPath q = true) :
    ∀ r ∈ rs, r.name ≠ "" → ChildFacts st₁.songPathMap uD r := by
  unfold listPlaylistSongs at h
  simp only [RenderOut.ok.injEq] at h
  obtain ⟨h1, h2⟩ := h
  subst h1
  subst h2
  intro r hr hne
  rcases List.mem_cons.mp hr with heq | hmem
  · subst heq
    have hcp : childPath uD (collRes plName (jsOr cp.updateTime env.todayDate))
        = uD ++ "/" ++ plName := childPath_eq uD _ hub hpnb hune
    refine ⟨hpns, hpnb, Or.inr (Or.inl ?_), fun hk => by simp [collRes] at hk⟩
    rw [hcp]
    exact hrootdir _
      (strStarts_extend (uD ++ "/") (root ++ "/") plName
        (strStarts_extend uD (root ++ "/") "/" hstarts))
  · obtain ⟨s, hs, hrs⟩ := List.mem_map.mp hmem
    subst hrs
    have hnb := songFilename_no_bslash env.cfg s.name s.ar
    have hns := songFilename_no_slash env.cfg s.name s.ar
    have hcp : childPath uD
        (songResource env.cfg (trackMtime cp (jsOr cp.updateTime env.todayDate) s) s)
        = songFullPath env.cfg uD s := by
      rw [childPath_eq uD _ hub hnb hune]
      rfl
    exact ⟨hns, hnb,
      Or.inr (Or.inr (by
        rw [hcp]
        exact alookup_spmAfter_isSome env.cfg uD _ _ s hs)),
      fun _ => ⟨by
        rw [hcp]
        exact alookup_spmAfter_isSome env.cfg uD _ _ s hs,
        songFilename_ends env.cfg s.name s.ar⟩⟩

theorem renderDailyPlaylistDir_children (env : Env) (st : St) (now : Int)
    (uD : String) (rs : List Resource) (st₁ : St)
    (hstarts : strStarts uD (dailyPlaylistsRoot ++ "/") = true)
    (h : renderDailyPlaylistDir env st now uD = .ok rs st₁) :
    ∀ r ∈ rs, r.name ≠ "" → ChildFacts st₁.songPathMap uD r := by
  unfold renderDailyPlaylistDir at h
  cases hgt : getRecommendPlaylists env st now with
  | error st2 =>
    rw [hgt] at h
    simp at h
  | ok v =>
    obtain ⟨pls, stA⟩ := v
    rw [hgt] at h
    simp only [RenderOut.ok.injEq] at h
    cases hf : pls.find? (fun q => cleanName q.name = strDropN uD 8) with
    | none =>
      rw [hf] at h
      simp only [RenderOut.ok.injEq] at h
      obtain ⟨h1, h2⟩ := h
      subst h1
      intro r hr
      exact absurd hr (List.not_mem_nil r)
    | some q =>
      rw [hf] at h
      simp only [RenderOut.ok.injEq] at h
      have hqn : cleanName q.name = strDropN uD 8 := by
        have h3 := List.find?_some hf
        simpa using h3
      obtain ⟨rest, hrest⟩ :=
        (prefixB_iff (dailyPlaylistsRoot ++ "/").data uD.data).mp hstarts
      have hdrop : (strDropN uD 8).data = rest := by
        show uD.data.drop 8 = rest
        rw [← hrest]
        have hlen : ((dailyPlaylistsRoot ++ "/").data).length = 8 := by decide
        rw [← hlen]
        exact List.drop_left (dailyPlaylistsRoot ++ "/").data rest
      have hub : '\\' ∉ uD.data := by
        rw [← hrest]
        intro hc
        rcases List.mem_append.mp hc with h4 | h4
        · exact absurd h4 (by decide)
        · rw [← hdrop, ← hqn] at h4
          exact cleanName_no_bslash q.name h4
      have hune : uD ≠ "/" := by
        intro h0
        rw [h0] at hstarts
        exact absurd hstarts (by decide)
      cases hsnap : getSnapshot env stA now q.id q.name
          (jsOr q.updateTime q.createTime) with
      | error st2 =>
        rw [hsnap] at h
        simp at h
      | ok w =>
        obtain ⟨cp, stB⟩ := w
        rw [hsnap] at h
        exact listPlaylistSongs_children env stB now uD (strDropN uD 8) cp rs st₁
          dailyPlaylistsRoot h hstarts hub hune
          (by rw [← hqn]; exact cleanName_no_slash q.name)
          (by rw [← hqn]; exact cleanName_no_bslash q.name)
          (fun q2 hq2 => isDirPath_of_prefix_daily q2 hq2)

theorem renderUserPlaylistDir_children (env : Env) (st : St) (now : Int)
    (uD : String) (rs : List Resource) (st₁ : St)
    (hstarts : strStarts uD (userPlaylistsRoot ++ "/") = true)
    (h : renderUserPlaylistDir env st now uD = .ok rs st₁) :
    ∀ r ∈ rs, r.name ≠ "" → ChildFacts st₁.songPathMap uD r := by
  unfold renderUserPlaylistDir at h
  cases hgt : getUserPlaylists env st now with
  | error st2 =>
    rw [hgt] at h
    simp at h
  | ok v =>
    obtain ⟨pls, stA⟩ := v
    rw [hgt] at h
    simp only [RenderOut.ok.injEq] at h
    cases hf : pls.find? (fun q => cleanName q.name = strDropN uD 6) with
    | none =>
      rw [hf] at h
      simp only [RenderOut.ok.injEq] at h
      obtain ⟨h1, h2⟩ := h
      subst h1
      intro r hr
      exact absurd hr (List.not_mem_nil r)
    | some q =>
      rw [hf] at h
      simp only [RenderOut.ok.injEq] at h
      have hqn : cleanName q.name = strDropN uD 6 := by
        have h3 := List.find?_some hf
        simpa using h3
      obtain ⟨rest, hrest⟩ :=
        (prefixB_iff (userPlaylistsRoot ++ "/").data uD.data).mp hstarts
      have hdrop : (strDropN uD 6).data = rest := by
        show uD.data.drop 6 = rest
        rw [← hrest]
        have hlen : ((userPlaylistsRoot ++ "/").data).length = 6 := by decide
        rw [← hlen]
        exact List.drop_left (userPlaylistsRoot ++ "/").data rest
      have hub : '\\' ∉ uD.data := by
        rw [← hrest]
        intro hc
        rcases List.mem_append.mp hc with h4 | h4
        · exact absurd h4 (by decide)
        · rw [← hdrop, ← hqn] at h4
          exact cleanName_no_bslash q.name h4
      have hune : uD ≠ "/" := by
        intro h0
        rw [h0] at hstarts
        exact absurd hstarts (by decide)
      cases hsnap : getSnapshot env stA now q.id q.name q.updateTime with
      | error st2 =>
        rw [hsnap] at h
        simp at h
      | ok w =>
        obtain ⟨cp, stB⟩ := w
        rw [hsnap] at h
        exact listPlaylistSongs_children env stB now uD (strDropN uD 6) cp rs st₁
          userPlaylistsRoot h hstarts hub hune
          (by rw [← hqn]; exact cleanName_no_slash q.name)
          (by rw [← hqn]; exact cleanName_no_bslash q.name)
          (fun q2 hq2 => isDirPath_of_prefix_user q2 hq2)



/-! ## Claim C1: assembling the round trip -/

theorem renderResources_children (env : Env) (st : St) (now : Int) (uD : String)
    (rs : List Resource) (st₁ : St)
    (hdir : isDirPath uD = true)
    (h : renderResources env st now uD = .ok rs st₁) :
    ∀ r ∈ rs, r.name ≠ "" → ChildFacts st₁.songPathMap uD r := by
  unfold renderResources at h
  by_cases h1 : uD = "/"
  · rw [if_pos h1] at h
    simp only [RenderOut.ok.injEq] at h
    obtain ⟨ha, hb⟩ := h
    subst ha
    subst h1
    exact rootResources_children env st₁.songPathMap
  rw [if_neg h1] at h
  by_cases h2 : uD = dailySongsRoot
  · rw [if_pos h2] at h
    subst h2
    exact renderDailySongs_children env st now rs st₁ h
  rw [if_neg h2] at h
  by_cases h3 : uD = dailyPlaylistsRoot
  · rw [if_pos h3] at h
    subst h3
    exact renderDailyPlaylists_children env st now rs st₁ h
  rw [if_neg h3] at h
  by_cases h4 : strStarts uD (dailyPlaylistsRoot ++ "/") = true
  · rw [if_pos h4] at h
    exact renderDailyPlaylistDir_children env st now uD rs st₁ h4 h
  rw [if_neg h4] at h
  by_cases h5 : uD = userPlaylistsRoot
  · rw [if_pos h5] at h
    subst h5
    exact renderUserPlaylists_children env st now rs st₁ h
  rw [if_neg h5] at h
  by_cases h6 : strStarts uD (userPlaylistsRoot ++ "/") = true
  · rw [if_pos h6] at h
    exact renderUserPlaylistDir_children env st now uD rs st₁ h6 h
  · exfalso
    unfold isDirPath at hdir
    rcases Bool.or_eq_true_iff.mp hdir with h0 | h0
    · rcases Bool.or_eq_true_iff.mp h0 with h7 | h7
      · rcases Bool.or_eq_true_iff.mp h7 with h8 | h8
        · rcases Bool.or_eq_true_iff.mp h8 with h9 | h9
          · rcases Bool.or_eq_true_iff.mp h9 with h10 | h10
            · exact h1 (by simpa using h10)
            · exact h2 (by simpa using h10)
          · exact h3 (by simpa using h9)
        · exact h4 h8
      · exact h5 (by simpa using h7)
    · exact h6 h0

theorem isDirPath_cases (p : String) (h : isDirPath p = true) :
    p = "/" ∨ p = dailySongsRoot ∨ p = dailyPlaylistsRoot ∨
    strStarts p (dailyPlaylistsRoot ++ "/") = true ∨ p = userPlaylistsRoot ∨
    strStarts p (userPlaylistsRoot ++ "/") = true := by
  unfold isDirPath at h
  rcases Bool.or_eq_true_iff.mp h with h0 | h0
  · rcases Bool.or_eq_true_iff.mp h0 with h7 | h7
    · rcases Bool.or_eq_true_iff.mp h7 with h8 | h8
      · rcases Bool.or_eq_true_iff.mp h8 with h9 | h9
        · rcases Bool.or_eq_true_iff.mp h9 with h10 | h10
          · exact Or.inl (by simpa using h10)
          · exact Or.inr (Or.inl (by simpa using h10))
        · exact Or.inr (Or.inr (Or.inl (by simpa using h9)))
      · exact Or.inr (Or.inr (Or.inr (Or.inl h8)))
    · exact Or.inr (Or.inr (Or.inr (Or.inr (Or.inl (by simpa using h7)))))
  · exact Or.inr (Or.inr (Or.inr (Or.inr (Or.inr h0))))

theorem renderDailySongs_nnf (env : Env) (st : St) (now : Int) :
    ∀ stX, renderDailySongs env st now ≠ .notFound stX := by
  intro stX hcontra
  unfold renderDailySongs at hcontra
  cases hgt : getDailyIds env st now with
  | error s2 =>
    rw [hgt] at hcontra
    simp at hcontra
  | ok v =>
    obtain ⟨a, b⟩ := v
    rw [hgt] at hcontra
    simp at hcontra

theorem renderDailyPlaylists_nnf (env : Env) (st : St) (now : Int) :
    ∀ stX, renderDailyPlaylists env st now ≠ .notFound stX := by
  intro stX hcontra
  unfold renderDailyPlaylists at hcontra
  cases hgt : getRecommendPlaylists env st now with
  | error s2 =>
    rw [hgt] at hcontra
    simp at hcontra
  | ok v =>
    obtain ⟨a, b⟩ := v
    rw [hgt] at hcontra
    simp at hcontra

theorem renderUserPlaylists_nnf (env : Env) (st : St) (now : Int) :
    ∀ stX, renderUserPlaylists env st now ≠ .notFound stX := by
  intro stX hcontra
  unfold renderUserPlaylists at hcontra
  cases hgt : getUserPlaylists env st now with
  | error s2 =>
    rw [hgt] at hcontra
    simp at hcontra
  | ok v =>
    obtain ⟨a, b⟩ := v
    rw [hgt] at hcontra
    simp at hcontra

theorem renderDailyPlaylistDir_nnf (env : Env) (st : St) (now : Int) (uD : String) :
    ∀ stX, renderDailyPlaylistDir env st now uD ≠ .notFound stX := by
  intro stX hcontra
  unfold renderDailyPlaylistDir at hcontra
  cases hgt : getRecommendPlaylists env st now with
  | error s2 =>
    rw [hgt] at hcontra
    simp at hcontra
  | ok v =>
    obtain ⟨pls, stA⟩ := v
    rw [hgt] at hcontra
    simp only [RenderOut.ok.injEq] at hcontra
    cases hf : pls.find? (fun q => cleanName q.name = strDropN uD 8) with
    | none =>
      rw [hf] at hcontra
      simp at hcontra
    | some q =>
      rw [hf] at hcontra
      simp only [RenderOut.ok.injEq] at hcontra
      cases hsnap : getSnapshot env stA now q.id q.name
          (jsOr q.updateTime q.createTime) with
      | error s2 =>
        rw [hsnap] at hcontra
        simp at hcontra
      | ok w =>
        obtain ⟨cp, stB⟩ := w
        rw [hsnap] at hcontra
        simp [listPlaylistSongs] at hcontra

theorem renderUserPlaylistDir_nnf (env : Env) (st : St) (now : Int) (uD : String) :
    ∀ stX, renderUserPlaylistDir env st now uD ≠ .notFound stX := by
  intro stX hcontra
  unfold renderUserPlaylistDir at hcontra
  cases hgt : getUserPlaylists env st now with
  | error s2 =>
    rw [hgt] at hcontra
    simp at hcontra
  | ok v =>
    obtain ⟨pls, stA⟩ := v
    rw [hgt] at hcontra
    simp only [RenderOut.ok.injEq] at hcontra
    cases hf : pls.find? (fun q => cleanName q.name = strDropN uD 6) with
    | none =>
      rw [hf] at hcontra
      simp at hcontra
    | some q =>
      rw [hf] at hcontra
      simp only [RenderOut.ok.injEq] at hcontra
      cases hsnap : getSnapshot env stA now q.id q.name q.updateTime with
      | error s2 =>
        rw [hsnap] at hcontra
        simp at hcontra
      | ok w =>
        obtain ⟨cp, stB⟩ := w
        rw [hsnap] at hcontra
        simp [listPlaylistSongs] at hcontra

/-- Under any of the resolvable-path conditions, `handlePropfind` never
answers 404: the branch handlers can only succeed or fail with 500, and
the final unknown-path branch is excluded. -/
theorem handlePropfind_ne404 (env : Env) (st : St) (now : Int) (p : String)
    (h : isDirPath p = true ∨ coverBranch p = true ∨
         (alookup p st.songPathMap).isSome = true) :
    (handlePropfind env st now p).resp.status ≠ 404 := by
  have hnnf : ∀ stX, renderResources env st now p ≠ .notFound stX := by
    intro stX hcontra
    unfold renderResources at hcontra
    by_cases h1 : p = "/"
    · rw [if_pos h1] at hcontra
      simp at hcontra
    rw [if_neg h1] at hcontra
    by_cases h2 : p = dailySongsRoot
    · rw [if_pos h2] at hcontra
      exact renderDailySongs_nnf env st now stX hcontra
    rw [if_neg h2] at hcontra
    by_cases h3 : p = dailyPlaylistsRoot
    · rw [if_pos h3] at hcontra
      exact renderDailyPlaylists_nnf env st now stX hcontra
    rw [if_neg h3] at hcontra
    by_cases h4 : strStarts p (dailyPlaylistsRoot ++ "/") = true
    · rw [if_pos h4] at hcontra
      exact renderDailyPlaylistDir_nnf env st now p stX hcontra
    rw [if_neg h4] at hcontra
    by_cases h5 : p = userPlaylistsRoot
    · rw [if_pos h5] at hcontra
      exact renderUserPlaylists_nnf env st now stX hcontra
    rw [if_neg h5] at hcontra
    by_cases h6 : strStarts p (userPlaylistsRoot ++ "/") = true
    · rw [if_pos h6] at hcontra
      exact renderUserPlaylistDir_nnf env st now p stX hcontra
    rw [if_neg h6] at hcontra
    by_cases h7 : (strEnds p "/cover.jpg" || strEnds p "/folder.jpg") = true
    · rw [if_pos h7] at hcontra
      simp [renderCover] at hcontra
    rw [if_neg h7] at hcontra
    rcases h with hd | hc | hs
    · rcases isDirPath_cases p hd with h0 | h0 | h0 | h0 | h0 | h0
      · exact h1 h0
      · exact h2 h0
      · exact h3 h0
      · exact h4 h0
      · exact h5 h0
      · exact h6 h0
    · exact h7 hc
    · unfold renderLeaf at hcontra
      cases halk : alookup p st.songPathMap with
      | some id =>
        rw [halk] at hcontra
        simp at hcontra
      | none =>
        rw [halk] at hs
        simp at hs
  cases hr : renderResources env st now p with
  | ok rs st₁ => simp [handlePropfind, hr]
  | failed st₁ => simp [handlePropfind, hr, respOf]
  | notFound st₁ => exact absurd hr (hnnf st₁)

theorem dispatch_propfind_ne404 (env : Env) (st : St) (now : Int) (q : String)
    (hlog : checkLogin env = true)
    (h : isDirPath (normPath q) = true ∨ coverBranch (normPath q) = true ∨
         (alookup (normPath q) st.songPathMap).isSome = true) :
    (dispatch env st now ⟨"PROPFIND", q, none⟩).resp.status ≠ 404 := by
  cases halk : alookup (normPath q) st.propfind with
  | some e =>
    by_cases hfr : now - e.timestamp < env.cfg.refreshInterval
    · simp [dispatch, hlog, halk, hfr]
    · simpa [dispatch, hlog, halk, hfr] using
        handlePropfind_ne404 env st now (normPath q) h
  | none =>
    simpa [dispatch, hlog, halk] using handlePropfind_ne404 env st now (normPath q) h

theorem dispatch_rendered (env : Env) (st : St) (now : Int) (D : String)
    (hlog : checkLogin env = true)
    (h : (dispatch env st now ⟨"PROPFIND", D, none⟩).rendered = true) :
    dispatch env st now ⟨"PROPFIND", D, none⟩
      = ⟨(handlePropfind env st now (normPath D)).resp,
         (handlePropfind env st now (normPath D)).st, true,
         (handlePropfind env st now (normPath D)).listed⟩ := by
  cases halk : alookup (normPath D) st.propfind with
  | none => simp [dispatch, hlog, halk]
  | some e =>
    by_cases hfr : now - e.timestamp < env.cfg.refreshInterval
    · simp [dispatch, hlog, halk, hfr] at h
    · simp [dispatch, hlog, halk, hfr]

theorem handlePropfind_207 (env : Env) (st : St) (now : Int) (p : String)
    (hok : (handlePropfind env st now p).resp.status = 207) :
    ∃ rs st₁, renderResources env st now p = .ok rs st₁ ∧
      (handlePropfind env st now p).listed = rs ∧
      (handlePropfind env st now p).st.songPathMap = st₁.songPathMap := by
  cases hr : renderResources env st now p with
  | ok rs st₁ =>
    refine ⟨rs, st₁, rfl, ?_, ?_⟩ <;> simp [handlePropfind, hr]
  | notFound st₁ => simp [handlePropfind, hr, respOf] at hok
  | failed st₁ => simp [handlePropfind, hr, respOf] at hok

theorem dispatch_head_200 (env : Env) (st : St) (now : Int) (q : String)
    (hlog : checkLogin env = true)
    (hc : coverBranch (normPath q) = false) :
    (dispatch env st now ⟨"HEAD", q, none⟩).resp.status = 200 := by
  simp [dispatch, hlog, handleGet, hc]

theorem dispatch_get_ne404 (env : Env) (st : St) (now : Int) (q : String)
    (id : Nat) (url : String) (hlog : checkLogin env = true)
    (hc : coverBranch (normPath q) = false)
    (hmap : alookup (normPath q) st.songPathMap = some id)
    (hurl : env.up.songUrl id = some (some url)) :
    (dispatch env st now ⟨"GET", q, none⟩).resp.status ≠ 404 := by
  have hget : (handleGet env st now (normPath q) false).1.status ≠ 404 := by
    unfold handleGet
    rw [if_neg (by simp [hc])]
    rw [if_neg (by simp)]
    simp only [hmap]
    by_cases hm : env.cfg.mode = "experience"
    · rw [if_pos hm]
      unfold handleGetExperience
      rw [hurl]
      cases hfa : env.up.fetchAudio url with
      | none => simp [hfa, respOf]
      | some buf =>
        by_cases hmp : strEnds (normPath q) ".mp3" = true
        · cases hdet : (getSongsDetails env now st.songs [id]).details with
          | nil => simp [hfa, hmp, hdet, respOf]
          | cons a t => simp [hfa, hmp, hdet]
        · simp only [Bool.not_eq_true] at hmp
          simp [hfa, hmp]
    · rw [if_neg hm]
      rw [hurl]
      simp
  simpa [dispatch, hlog] using hget

/-- The suffix of a child name is a suffix of its child path. -/
theorem strEnds_childPath_of_name (uD : String) (r : Resource) (ext : String)
    (hnb : '\\' ∉ r.name.data) (he : strEnds r.name ext = true) :
    strEnds (childPath uD r) ext = true := by
  unfold strEnds at he ⊢
  rw [childPath_data, List.map_append]
  have hnm : r.name.data.map (fun c => if c = '\\' then '/' else c) = r.name.data := by
    have h2 : ∀ c ∈ r.name.data, (if c = '\\' then '/' else c) = id c := by
      intro c hcm
      have hcne : c ≠ '\\' := fun he2 => hnb (he2 ▸ hcm)
      simp [hcne]
    rw [List.map_congr_left h2, List.map_id]
  rw [hnm, List.reverse_append]
  exact prefixB_append_right ext.data.reverse r.name.data.reverse _ he

/-- C1 (amended): path round-trip for rendered directory listings.  Every
child entry of a successful rendered PROPFIND on a directory path
re-resolves as follows: a subsequent PROPFIND on the child path never
returns 404 (except for the daily-songs directory's self-named entry); a
subsequent HEAD returns 200 whenever the child path is not a cover-image
path; and a file child is registered in `songPathMap`, so a subsequent GET
does not return 404 provided the upstream yields a stream URL for its id.
GET on a collection child, by contrast, can return 404
(see the counterexample). -/
theorem claim_C1 (env : Env) (st : St) (now₁ now₂ : Int) (D : String) (r : Resource)
    (hlog : checkLogin env = true)
    (hdir : isDirPath (normPath D) = true)
    (hrend : (dispatch env st now₁ ⟨"PROPFIND", D, none⟩).rendered = true)
    (hok : (dispatch env st now₁ ⟨"PROPFIND", D, none⟩).resp.status = 207)
    (hr : r ∈ (dispatch env st now₁ ⟨"PROPFIND", D, none⟩).listed)
    (hname : r.name ≠ "") :
    (childPath (normPath D) r ≠ "/每日推荐歌曲/每日推荐歌曲" →
      (dispatch env (dispatch env st now₁ ⟨"PROPFIND", D, none⟩).st now₂
          ⟨"PROPFIND", childPath (normPath D) r, none⟩).resp.status ≠ 404) ∧
    (coverBranch (childPath (normPath D) r) = false →
      (dispatch env (dispatch env st now₁ ⟨"PROPFIND", D, none⟩).st now₂
          ⟨"HEAD", childPath (normPath D) r, none⟩).resp.status = 200) ∧
    (r.kind = RKind.file →
      ∃ id, alookup (childPath (normPath D) r)
          (dispatch env st now₁ ⟨"PROPFIND", D, none⟩).st.songPathMap = some id ∧
        ∀ url, env.up.songUrl id = some (some url) →
          (dispatch env (dispatch env st now₁ ⟨"PROPFIND", D, none⟩).st now₂
              ⟨"GET", childPath (normPath D) r, none⟩).resp.status ≠ 404) := by
  have hd := dispatch_rendered env st now₁ D hlog hrend
  have hok2 : (handlePropfind env st now₁ (normPath D)).resp.status = 207 := by
    rw [hd] at hok
    exact hok
  have hr2 : r ∈ (handlePropfind env st now₁ (normPath D)).listed := by
    rw [hd] at hr
    exact hr
  obtain ⟨rs, st₁, hrender, hlist, hspm⟩ :=
    handlePropfind_207 env st now₁ (normPath D) hok2
  have hr3 : r ∈ rs := hlist ▸ hr2
  obtain ⟨hns, hnb, hdisj, hfile⟩ :=
    renderResources_children env st now₁ (normPath D) rs st₁ hdir hrender r hr3 hname
  have hnormp := normPath_childPath (normPath D) r hname hns hnb
  have hst2 : (dispatch env st now₁ ⟨"PROPFIND", D, none⟩).st.songPathMap
      = st₁.songPathMap := by
    rw [hd]
    exact hspm
  refine ⟨?_, ?_, ?_⟩
  · intro hbad
    apply dispatch_propfind_ne404 env _ now₂ _ hlog
    rw [hnormp]
    rcases hdisj with hx | hx | hx
    · exact absurd hx hbad
    · exact Or.inl hx
    · right
      right
      rw [hst2]
      exact hx
  · intro hcov
    apply dispatch_head_200 env _ now₂ _ hlog
    rw [hnormp]
    exact hcov
  · intro hk
    obtain ⟨hsome, hext⟩ := hfile hk
    rw [← hst2] at hsome
    obtain ⟨id, hid⟩ := Option.isSome_iff_exists.mp hsome
    refine ⟨id, hid, ?_⟩
    intro url hurl
    have hpext : (strEnds (childPath (normPath D) r) ".mp3"
        || strEnds (childPath (normPath D) r) ".flac") = true := by
      rcases Bool.or_eq_true_iff.mp hext with hx | hx
      · exact Bool.or_eq_true_iff.mpr
          (Or.inl (strEnds_childPath_of_name (normPath D) r ".mp3" hnb hx))
      · exact Bool.or_eq_true_iff.mpr
          (Or.inr (strEnds_childPath_of_name (normPath D) r ".flac" hnb hx))
    apply dispatch_get_ne404 env _ now₂ _ id url hlog ?_ ?_ hurl
    · rw [hnormp]
      exact cover_false_of_ends_ext _ hpext
    · rw [hnormp]
      exact hid


/-- C1 counterexample to the unamended claim: a fresh PROPFIND on `/`
succeeds with 207 and lists the collection child `我的歌单`, whose child
path is `/我的歌单`; yet a GET on that exact path against the post-listing
state (no intervening invalidation) returns 404, because GET resolves only
song files. -/
theorem claim_C1_counterexample :
    (dispatch envH stEmpty 0 ⟨"PROPFIND", "/", none⟩).resp.status = 207 ∧
    collRes "我的歌单" 0 ∈ (dispatch envH stEmpty 0 ⟨"PROPFIND", "/", none⟩).listed ∧
    childPath (normPath "/") (collRes "我的歌单" 0) = "/我的歌单" ∧
    (dispatch envH (dispatch envH stEmpty 0 ⟨"PROPFIND", "/", none⟩).st 0
        ⟨"GET", "/我的歌单", none⟩).resp.status = 404 := by
  refine ⟨by decide, by decide, by decide, by decide⟩

theorem claim_C1_witness :
    (dispatch envH (dispatch envH stEmpty 0 ⟨"PROPFIND", "/", none⟩).st 0
        ⟨"HEAD", childPath (normPath "/") (collRes "我的歌单" 0), none⟩).resp.status
      = 200 ∧
    (dispatch envH (dispatch envH stEmpty 0 ⟨"PROPFIND", "/", none⟩).st 0
        ⟨"PROPFIND", childPath (normPath "/") (collRes "我的歌单" 0),
         none⟩).resp.status ≠ 404 :=
  have h := claim_C1 envH stEmpty 0 0 "/" (collRes "我的歌单" 0)
    (by decide) (by decide) (by decide) (by decide) (by decide) (by decide)
  ⟨h.2.1 (by decide), h.1 (by decide)⟩

end NCM
